import Mathlib

/-!
Shallow embedding of the collabx session-synchronization subsystem:
the server-side session registry and connection gateway (`src/server/server.ts`),
the fixed-window rate limiter (`src/server/rateLimiter.ts`), the payload
validator (`ValidationService`), and the client sync agent
(`src/services/socket/socketService.ts` and `src/lib/services/socket/socketService.ts`).
JavaScript runtime values that flow through untyped payloads are modelled by
`JsVal`; machine behaviour such as property access on `undefined` (a thrown
TypeError) is modelled with `Except`.
-/

set_option autoImplicit false
set_option maxRecDepth 100000
set_option maxHeartbeats 1000000

/-- Dynamic JavaScript values as they appear in socket payloads: `undefined`,
strings, numbers, plain objects (association lists of fields) and arrays. -/
inductive JsVal where
  | undefined : JsVal
  | str : String → JsVal
  | num : Int → JsVal
  | obj : List (String × JsVal) → JsVal
  | arr : List JsVal → JsVal

/-- Optional-chaining property access `v?.k`: an `undefined` receiver yields
`undefined` instead of throwing; non-object receivers have no own fields. -/
def JsVal.fieldOpt : JsVal → String → JsVal
  | .obj fs, k => ((fs.find? (fun p => p.1 == k)).map (fun p => p.2)).getD .undefined
  | _, _ => .undefined

/-- Plain property access `v.k`: throws a TypeError (modelled as `Except.error`)
when the receiver is `undefined`. -/
def JsVal.fieldStrict : JsVal → String → Except Unit JsVal
  | .undefined, _ => .error ()
  | v, k => .ok (v.fieldOpt k)

/-- JavaScript truthiness of a value. -/
def JsVal.truthy : JsVal → Bool
  | .undefined => false
  | .str s => !(s == "")
  | .num n => !(n == 0)
  | .obj _ => true
  | .arr _ => true

/-- Whether `typeof v === 'object'` holds (objects and arrays). -/
def JsVal.typeofObject : JsVal → Bool
  | .obj _ => true
  | .arr _ => true
  | _ => false

/-- Coercion used by handlers on fields that validation has already proven to
be strings; any other shape collapses to `""` (never reached after validation). -/
def JsVal.asString : JsVal → String
  | .str s => s
  | _ => ""

/-- Coercion used by handlers on fields that validation has already proven to
be numbers. -/
def JsVal.asInt : JsVal → Int
  | .num n => n
  | _ => 0

section AssocHelpers

variable {κ : Type} {β : Type} [DecidableEq κ]

/-- Lookup in an association list, mirroring `Map.get`. -/
def getA : List (κ × β) → κ → Option β
  | [], _ => none
  | (k', v) :: rest, k => if k' = k then some v else getA rest k

/-- Key removal, mirroring `Map.delete`. -/
def delA : List (κ × β) → κ → List (κ × β)
  | [], _ => []
  | (k', v) :: rest, k => if k' = k then delA rest k else (k', v) :: delA rest k

/-- Key update, mirroring `Map.set` (extensionally; entry order is irrelevant
to every verified property). -/
def setA (l : List (κ × β)) (k : κ) (v : β) : List (κ × β) :=
  (k, v) :: delA l k

theorem getA_delA_self (l : List (κ × β)) (k : κ) : getA (delA l k) k = none := by
  induction l with
  | nil => rfl
  | cons p rest ih =>
    obtain ⟨a, b⟩ := p
    rw [delA]
    by_cases h : a = k
    · rw [if_pos h]
      exact ih
    · rw [if_neg h]
      show (if a = k then some b else getA (delA rest k) k) = none
      rw [if_neg h]
      exact ih

theorem getA_delA_ne (l : List (κ × β)) (k k' : κ) (h : k ≠ k') :
    getA (delA l k) k' = getA l k' := by
  induction l with
  | nil => rfl
  | cons p rest ih =>
    obtain ⟨a, b⟩ := p
    rw [delA]
    by_cases hp : a = k
    · have hak' : a ≠ k' := fun hh => h (hp ▸ hh)
      rw [if_pos hp, ih]
      show getA rest k' = if a = k' then some b else getA rest k'
      rw [if_neg hak']
    · rw [if_neg hp]
      show (if a = k' then some b else getA (delA rest k) k') =
        if a = k' then some b else getA rest k'
      by_cases hk : a = k'
      · rw [if_pos hk, if_pos hk]
      · rw [if_neg hk, if_neg hk, ih]

theorem getA_setA_self (l : List (κ × β)) (k : κ) (v : β) :
    getA (setA l k v) k = some v := by
  simp [setA, getA]

theorem getA_setA_ne (l : List (κ × β)) (k k' : κ) (v : β) (h : k ≠ k') :
    getA (setA l k v) k' = getA l k' := by
  show (if k = k' then some v else getA (delA l k) k') = getA l k'
  rw [if_neg h]
  exact getA_delA_ne l k k' h

theorem getA_setA_same (l : List (κ × β)) (k : κ) (v : β) (h : getA l k = some v) :
    ∀ x, getA (setA l k v) x = getA l x := by
  intro x
  by_cases hx : k = x
  · subst hx; rw [getA_setA_self, h]
  · exact getA_setA_ne l k x v hx

theorem delA_sublist (l : List (κ × β)) (k : κ) : List.Sublist (delA l k) l := by
  induction l with
  | nil => exact List.Sublist.refl []
  | cons p rest ih =>
    obtain ⟨a, b⟩ := p
    by_cases h : a = k
    · rw [delA, if_pos h]
      exact ih.cons (a, b)
    · rw [delA, if_neg h]
      exact ih.cons₂ (a, b)

theorem mem_delA {l : List (κ × β)} {k : κ} {p : κ × β} (h : p ∈ delA l k) : p ∈ l :=
  (delA_sublist l k).subset h

theorem mem_setA {l : List (κ × β)} {k : κ} {v : β} {p : κ × β}
    (h : p ∈ setA l k v) : p = (k, v) ∨ p ∈ l := by
  rcases List.mem_cons.mp h with h' | h'
  · exact Or.inl h'
  · exact Or.inr (mem_delA h')

theorem length_delA_le (l : List (κ × β)) (k : κ) : (delA l k).length ≤ l.length :=
  (delA_sublist l k).length_le

theorem length_setA_le (l : List (κ × β)) (k : κ) (v : β) :
    (setA l k v).length ≤ l.length + 1 := by
  simp only [setA, List.length_cons]
  exact Nat.succ_le_succ (length_delA_le l k)

theorem setA_ne_nil (l : List (κ × β)) (k : κ) (v : β) : setA l k v ≠ [] := by
  simp [setA]

end AssocHelpers

/-- The wire event tags (string enum `MessageType` in `src/types/index.ts`). -/
inductive MessageType where
  | JOIN | LEAVE | CONTENT_CHANGE | LANGUAGE_CHANGE | USER_JOINED | USER_LEFT
  | CURSOR_MOVE | SELECTION_CHANGE | ERROR | UNDO_REDO_STACK | UNDO | REDO
  | SYNC_RESPONSE | SYNC_REQUEST
deriving DecidableEq, Repr

/-- A structured validation failure; the emitted object always carries
`type: VALIDATION_ERROR` alongside this message. -/
structure ValidationError where
  message : String
deriving DecidableEq, Repr

namespace ValidationService

/-- Character class of the `[a-zA-Z0-9_-]` patterns used for usernames and
session ids. -/
def isWordChar (c : Char) : Bool :=
  c.isAlpha || c.isDigit || c == '_' || c == '-'

/-- The regex test `^[a-zA-Z0-9_-]+$` on a string. -/
def patternTest (s : String) : Bool :=
  decide (1 ≤ s.length) && s.toList.all isWordChar

/-- Mirrors `ValidationService.validateSessionId`: the handshake query value is a
string (or absent, modelled by `""` which fails the falsiness check). -/
def validateSessionId (sessionId : String) : Option ValidationError :=
  if sessionId == "" then some ⟨"Invalid session ID"⟩
  else if 50 < sessionId.length then some ⟨"Session ID must be less than 50 characters"⟩
  else if !patternTest sessionId then
    some ⟨"Session ID can only contain letters, numbers, underscores, and hyphens"⟩
  else none

/-- Mirrors `ValidationService.validateUsername` on a dynamic value: a falsy or
non-string value fails the `!username || typeof username !== 'string'` guard. -/
def validateUsername (v : JsVal) : Option ValidationError :=
  match v with
  | .str s =>
    if s == "" then some ⟨"Username is required"⟩
    else if s.length < 3 then some ⟨"Username must be at least 3 characters long"⟩
    else if 30 < s.length then some ⟨"Username must be less than 30 characters"⟩
    else if !patternTest s then
      some ⟨"Username can only contain letters, numbers, underscores, and hyphens"⟩
    else none
  | _ => some ⟨"Username is required"⟩

/-- Mirrors `ValidationService.validateContent`: only `typeof content !== 'string'`
and the length bound are checked; the empty string passes. -/
def validateContent (v : JsVal) : Option ValidationError :=
  match v with
  | .str s =>
    if 1000000 < s.length then some ⟨"Content must be less than 1000000 characters"⟩
    else none
  | _ => some ⟨"Content must be a string"⟩

/-- The fixed supported-language list. -/
def supportedLanguages : List String :=
  ["javascript", "typescript", "python", "java", "cpp", "csharp", "go", "rust"]

/-- Mirrors `ValidationService.validateLanguage`. -/
def validateLanguage (v : JsVal) : Option ValidationError :=
  match v with
  | .str s =>
    if s == "" then some ⟨"Language is required"⟩
    else if !(supportedLanguages.contains s.toLower) then
      some ⟨"Unsupported programming language"⟩
    else none
  | _ => some ⟨"Language is required"⟩

/-- Mirrors `ValidationService.validatePosition` on a dynamic value. -/
def validatePosition (v : JsVal) : Option ValidationError :=
  if !v.truthy || !v.typeofObject then some ⟨"Position must be an object"⟩
  else
    match v.fieldOpt "top", v.fieldOpt "left" with
    | .num t, .num l =>
      if t < 0 || l < 0 then some ⟨"Position coordinates cannot be negative"⟩
      else none
    | _, _ => some ⟨"Position coordinates must be numbers"⟩

/-- Mirrors `ValidationService.validateSelection` on a dynamic value. -/
def validateSelection (v : JsVal) : Option ValidationError :=
  if !v.truthy || !v.typeofObject then some ⟨"Selection must be an object"⟩
  else
    match v.fieldOpt "start", v.fieldOpt "end" with
    | .num s, .num e =>
      if s < 0 || e < 0 then some ⟨"Selection bounds cannot be negative"⟩
      else if e < s then some ⟨"Selection start cannot be greater than end"⟩
      else none
    | _, _ => some ⟨"Selection bounds must be numbers"⟩

/-- Mirrors `ValidationService.validateEventPayload`: dispatch by event type. The
field accesses `payload.username`, `payload.content`, … use plain (not
optional) property access, so an `undefined` payload throws a TypeError,
modelled as `Except.error ()`. -/
def validateEventPayload (type : MessageType) (payload : JsVal) :
    Except Unit (Option ValidationError) :=
  match type with
  | .JOIN => do pure (validateUsername (← payload.fieldStrict "username"))
  | .CONTENT_CHANGE => do pure (validateContent (← payload.fieldStrict "content"))
  | .LANGUAGE_CHANGE => do pure (validateLanguage (← payload.fieldStrict "language"))
  | .CURSOR_MOVE => do pure (validatePosition (← payload.fieldStrict "position"))
  | .SELECTION_CHANGE => do pure (validateSelection (← payload.fieldStrict "selection"))
  | _ => .ok none

end ValidationService


/-- Configuration of one quota (`RateLimitConfig` in `rateLimiter.ts`). -/
structure RateLimitConfig where
  windowMs : Nat
  max : Nat
  message : String
deriving DecidableEq, Repr

/-- Per-(client, event) counter state (`RateLimitState`). -/
structure RateLimitState where
  count : Nat
  resetTime : Nat
deriving DecidableEq, Repr

/-- The fixed-window rate limiter: quota per event type plus per-event maps of
client states. Event keys are `MessageType` values (string enum members in the
source); client keys are socket ids. -/
structure RateLimiter where
  limits : List (MessageType × RateLimitConfig)
  states : List (MessageType × List (String × RateLimitState))
deriving DecidableEq, Repr

/-- Mirrors `RateLimiter.addLimit`. -/
def RateLimiter.addLimit (rl : RateLimiter) (event : MessageType)
    (config : RateLimitConfig) : RateLimiter :=
  { limits := setA rl.limits event config, states := setA rl.states event [] }

/-- Mirrors `RateLimiter.isRateLimited(socket, event)` at wall-clock time `now`:
lazily opens a window, resets the counter once `now` is strictly past the
window end, increments, and reports `limited` once the count exceeds `max`.
Returns the updated limiter alongside `{limited, message?}`. -/
def RateLimiter.isRateLimited (rl : RateLimiter) (clientId : String)
    (event : MessageType) (now : Nat) : RateLimiter × Bool × Option String :=
  match getA rl.limits event with
  | none => (rl, false, none)
  | some limit =>
    let eventStates := (getA rl.states event).getD []
    let state0 := (getA eventStates clientId).getD
      { count := 0, resetTime := now + limit.windowMs }
    let state1 := if state0.resetTime < now then
      ({ count := 0, resetTime := now + limit.windowMs } : RateLimitState) else state0
    let state2 := { state1 with count := state1.count + 1 }
    let rl' := { rl with states := setA rl.states event (setA eventStates clientId state2) }
    if limit.max < state2.count then (rl', true, some limit.message)
    else (rl', false, none)

/-- Mirrors `RateLimiter.clearClient`: drop the client's counters for every event. -/
def RateLimiter.clearClient (rl : RateLimiter) (clientId : String) : RateLimiter :=
  { rl with states := rl.states.map (fun p => (p.1, delA p.2 clientId)) }

/-- The limiter as configured at the top of `server.ts`. -/
def serverRateLimiter : RateLimiter :=
  (((((({ limits := [], states := [] } : RateLimiter).addLimit .JOIN
    { windowMs := 60000, max := 5,
      message := "Too many join attempts. Please wait a moment before trying again." }).addLimit
    .CONTENT_CHANGE
    { windowMs := 1000, max := 50,
      message := "Too many content changes. Please wait a moment." }).addLimit
    .CURSOR_MOVE
    { windowMs := 1000, max := 100,
      message := "Too many cursor movements. Please wait a moment." }).addLimit
    .SELECTION_CHANGE
    { windowMs := 1000, max := 50,
      message := "Too many selection changes. Please wait a moment." }).addLimit
    .LANGUAGE_CHANGE
    { windowMs := 5000, max := 10,
      message := "Too many language changes. Please wait a moment." })

/-- Modelled from the spec: the default document text exported by `lib/utils`
(the file itself is not in the snapshot; §4.1 says a fresh session starts with
"content=default text"). The concrete value is irrelevant to every verified
property, which only compares against this constant symbolically. -/
def DEFAULT_CONTENT : String := "// Start typing here..."

/-- Modelled from the spec: the default language tag exported by `lib/utils`
("language=default tag" in §4.1). -/
def DEFAULT_LANGUAGE : String := "javascript"

/-- Modelled from the spec: `getRandomColor` from `lib/utils` picks a display
color at random; color choice affects no verified property, so it is modelled
as a constant. -/
def getRandomColor : String := "#4f46e5"

def MAX_USERS_PER_SESSION : Nat := 5

/-- A joined user as stored in a session's `users` map. -/
structure SUser where
  id : Nat
  username : String
  color : String
  lastActive : Nat
  sessionId : String
deriving DecidableEq, Repr

/-- A session in the server's session map. -/
structure Session where
  id : String
  content : String
  language : String
  lastActive : Nat
  users : List (Nat × SUser)
deriving DecidableEq, Repr

/-- The authoritative server state: session map, monotone user-id counter and
the rate limiter. -/
structure ServerState where
  sessions : List (String × Session)
  currentUserId : Nat
  rl : RateLimiter
deriving DecidableEq, Repr

/-- Per-connection server-side data: socket id, the session id fixed at
handshake, `socket.data.userId` (set on successful JOIN; user ids start at 1,
so the source's truthiness test on it coincides with `isSome`), and whether
the transport is still open. -/
structure Conn where
  sid : String
  sessionId : String
  userId : Option Nat
  connected : Bool
deriving DecidableEq, Repr

/-- Messages the server emits. Cursor / selection broadcasts carry the numeric
coordinates that validation guarantees are present in the payload. -/
inductive ServerMsg where
  | error (etype message : String)
  | syncResponse (content language : String) (users : List SUser)
  | userJoined (user : SUser)
  | contentChanged (content : String) (user : SUser)
  | languageChanged (language : String) (user : SUser)
  | cursorMoved (top left : Int) (user : SUser)
  | selectionChanged (start stop : Int) (user : SUser)
  | userLeft (user : SUser)
deriving DecidableEq, Repr

/-- Messages produced by one handler invocation: emits to the originating
socket, broadcasts to the rest of the room, and whether the handler closed
the connection. -/
structure Output where
  toSelf : List ServerMsg
  toRoom : List ServerMsg
  closed : Bool
deriving DecidableEq, Repr

def Output.empty : Output := ⟨[], [], false⟩

/-- The JOIN handler body (`server.ts` lines 117-172), after the wrapper has
passed. `username` is the payload's `username` field, a string by validation. -/
def handleJoin (st : ServerState) (c : Conn) (username : String) (now : Nat) :
    ServerState × Conn × Output :=
  let got := getA st.sessions c.sessionId
  let session := got.getD
    { id := c.sessionId, content := DEFAULT_CONTENT, language := DEFAULT_LANGUAGE,
      lastActive := now, users := [] }
  let sessions1 := if got.isSome then st.sessions else setA st.sessions c.sessionId session
  if session.users.any (fun p => p.2.username == username) then
    ({ st with sessions := sessions1 }, c,
      ⟨[.error "DUPLICATE_USERNAME" "Username already taken"], [], true⟩)
  else if MAX_USERS_PER_SESSION ≤ session.users.length then
    ({ st with sessions := sessions1 }, c,
      ⟨[.error "SESSION_FULL" "Session is full"], [], true⟩)
  else
    let userId := st.currentUserId
    let user : SUser :=
      { id := userId, username := username, color := getRandomColor,
        lastActive := now, sessionId := c.sessionId }
    let session' := { session with users := setA session.users userId user, lastActive := now }
    ({ st with sessions := setA sessions1 c.sessionId session', currentUserId := userId + 1 },
      { c with userId := some userId },
      ⟨[.syncResponse session'.content session'.language (session'.users.map (fun p => p.2))],
        [.userJoined user], false⟩)

/-- The SYNC_REQUEST handler (`server.ts` lines 175-184): registered without
the rate-limit/validation wrapper; silently does nothing when the connection's
session id has no live session. -/
def handleSyncRequest (st : ServerState) (c : Conn) : Output :=
  match getA st.sessions c.sessionId with
  | some session =>
    ⟨[.syncResponse session.content session.language (session.users.map (fun p => p.2))], [], false⟩
  | none => Output.empty

/-- The CONTENT_CHANGE handler body (`server.ts` lines 188-203). -/
def handleContentChange (st : ServerState) (c : Conn) (content : String) (now : Nat) :
    ServerState × Output :=
  match getA st.sessions c.sessionId, c.userId with
  | some session, some userId =>
    let session' := { session with content := content, lastActive := now }
    let st' := { st with sessions := setA st.sessions c.sessionId session' }
    match getA session.users userId with
    | some user => (st', ⟨[], [.contentChanged content user], false⟩)
    | none => (st', Output.empty)
  | _, _ => (st, Output.empty)

/-- The LANGUAGE_CHANGE handler body (`server.ts` lines 210-225). -/
def handleLanguageChange (st : ServerState) (c : Conn) (language : String) (now : Nat) :
    ServerState × Output :=
  match getA st.sessions c.sessionId, c.userId with
  | some session, some userId =>
    let session' := { session with language := language, lastActive := now }
    let st' := { st with sessions := setA st.sessions c.sessionId session' }
    match getA session.users userId with
    | some user => (st', ⟨[], [.languageChanged language user], false⟩)
    | none => (st', Output.empty)
  | _, _ => (st, Output.empty)

/-- The CURSOR_MOVE handler body (`server.ts` lines 233-246): broadcast only,
never writes session state. -/
def handleCursorMove (st : ServerState) (c : Conn) (top left : Int) : Output :=
  match getA st.sessions c.sessionId, c.userId with
  | some session, some userId =>
    match getA session.users userId with
    | some user => ⟨[], [.cursorMoved top left user], false⟩
    | none => Output.empty
  | _, _ => Output.empty

/-- The SELECTION_CHANGE handler body (`server.ts` lines 254-267). -/
def handleSelectionChange (st : ServerState) (c : Conn) (start stop : Int) : Output :=
  match getA st.sessions c.sessionId, c.userId with
  | some session, some userId =>
    match getA session.users userId with
    | some user => ⟨[], [.selectionChanged start stop user], false⟩
    | none => Output.empty
  | _, _ => Output.empty

/-- The disconnect handler (`server.ts` lines 271-290): remove the user if one
was joined, broadcast USER_LEFT, delete the session when it empties, and clear
the client's rate-limit counters. -/
def serverDisconnect (st : ServerState) (c : Conn) : ServerState × Output :=
  let stOut :=
    match getA st.sessions c.sessionId, c.userId with
    | some session, some userId =>
      match getA session.users userId with
      | some user =>
        let users' := delA session.users userId
        let st' :=
          if users'.length = 0 then { st with sessions := delA st.sessions c.sessionId }
          else { st with sessions := setA st.sessions c.sessionId { session with users := users' } }
        (st', (⟨[], [.userLeft user], false⟩ : Output))
      | none => (st, Output.empty)
    | _, _ => (st, Output.empty)
  ({ stOut.1 with rl := stOut.1.rl.clearClient c.sid }, stOut.2)

/-- Dispatch from a validated wrapped event to its handler body, extracting the
payload fields whose shapes validation has established. -/
def runHandler (st : ServerState) (c : Conn) (event : MessageType) (payload : JsVal)
    (now : Nat) : ServerState × Conn × Output :=
  match event with
  | .JOIN => handleJoin st c (payload.fieldOpt "username").asString now
  | .CONTENT_CHANGE =>
    let r := handleContentChange st c (payload.fieldOpt "content").asString now
    (r.1, c, r.2)
  | .LANGUAGE_CHANGE =>
    let r := handleLanguageChange st c (payload.fieldOpt "language").asString now
    (r.1, c, r.2)
  | .CURSOR_MOVE =>
    let pos := payload.fieldOpt "position"
    (st, c, handleCursorMove st c (pos.fieldOpt "top").asInt (pos.fieldOpt "left").asInt)
  | .SELECTION_CHANGE =>
    let sel := payload.fieldOpt "selection"
    (st, c, handleSelectionChange st c (sel.fieldOpt "start").asInt (sel.fieldOpt "end").asInt)
  | _ => (st, c, Output.empty)

/-- Mirrors `wrapWithValidationAndRateLimit` (`server.ts` lines 88-113): the rate
limiter runs first, then payload validation, and only then the handler body.
A validation call that throws (undefined payload) aborts the socket.io handler
with no emit and no state change beyond the already-counted rate-limit tick. -/
def wrapStep (st : ServerState) (c : Conn) (event : MessageType) (payload : JsVal)
    (now : Nat) : ServerState × Conn × Output :=
  let rlr := st.rl.isRateLimited c.sid event now
  let st1 := { st with rl := rlr.1 }
  if rlr.2.1 then
    (st1, c, ⟨[.error "RATE_LIMIT_EXCEEDED" (rlr.2.2.getD "")], [], false⟩)
  else
    match ValidationService.validateEventPayload event payload with
    | .error _ => (st1, c, Output.empty)
    | .ok (some ve) => (st1, c, ⟨[.error "VALIDATION_ERROR" ve.message], [], false⟩)
    | .ok none => runHandler st1 c event payload now

/-- The events registered through the wrapper in `setupSocketServer`. -/
def wrappedEvents : List MessageType :=
  [.JOIN, .CONTENT_CHANGE, .LANGUAGE_CHANGE, .CURSOR_MOVE, .SELECTION_CHANGE]

/-- The whole gateway: server state plus the per-socket connection records. -/
structure World where
  st : ServerState
  conns : List (String × Conn)
deriving DecidableEq, Repr

/-- External stimuli: a transport connect with its handshake session id, an
inbound client event at time `now`, or a transport disconnect. -/
inductive WEvent where
  | connect (cid : String) (sessionId : String)
  | msg (cid : String) (event : MessageType) (payload : JsVal) (now : Nat)
  | close (cid : String)

/-- One completed event-handler execution of `setupSocketServer`. A handler
that calls `socket.disconnect()` (`closed` output) immediately triggers the
disconnect handler on the same connection, as socket.io does. -/
def stepWorld (w : World) (e : WEvent) : World × Output :=
  match e with
  | .connect cid sessionId =>
    match ValidationService.validateSessionId sessionId with
    | some ve => (w, ⟨[.error "VALIDATION_ERROR" ve.message], [], true⟩)
    | none =>
      let c : Conn := { sid := cid, sessionId := sessionId, userId := none, connected := true }
      ({ w with conns := setA w.conns cid c }, Output.empty)
  | .msg cid event payload now =>
    match getA w.conns cid with
    | some c =>
      if c.connected then
        if wrappedEvents.contains event then
          let r := wrapStep w.st c event payload now
          if r.2.2.closed then
            let d := serverDisconnect r.1 r.2.1
            ({ st := d.1, conns := setA w.conns cid { r.2.1 with connected := false } }, r.2.2)
          else
            ({ st := r.1, conns := setA w.conns cid r.2.1 }, r.2.2)
        else if event = .SYNC_REQUEST then
          (w, handleSyncRequest w.st c)
        else (w, Output.empty)
      else (w, Output.empty)
    | none => (w, Output.empty)
  | .close cid =>
    match getA w.conns cid with
    | some c =>
      if c.connected then
        let d := serverDisconnect w.st c
        ({ st := d.1, conns := setA w.conns cid { c with connected := false } }, d.2)
      else (w, Output.empty)
    | none => (w, Output.empty)

/-- The gateway as the process starts: no sessions, user ids from 1, the
configured limiter. -/
def initialWorld : World :=
  { st := { sessions := [], currentUserId := 1, rl := serverRateLimiter }, conns := [] }

/-- Run a sequence of stimuli, keeping only the final state. -/
def runEvents (w : World) (evs : List WEvent) : World :=
  evs.foldl (fun w e => (stepWorld w e).1) w


namespace Client

/-- The `ErrorRecoveryOptions` of the client socket service. -/
structure ErrorRecoveryOptions where
  maxRetries : Nat
  retryDelay : Nat
  backoffFactor : Nat
  maxRetryDelay : Nat
deriving DecidableEq, Repr

def DEFAULT_ERROR_RECOVERY_OPTIONS : ErrorRecoveryOptions :=
  { maxRetries := 5, retryDelay := 1000, backoffFactor := 2, maxRetryDelay := 5000 }

/-- The client sync agent's connection state (`SocketConnectionState` plus the
pending reconnect timer, modelled as a flag). -/
structure ConnState where
  reconnectAttempts : Nat
  maxReconnectAttempts : Nat
  isInitialConnection : Bool
  isConnecting : Bool
  isDisconnecting : Bool
  pendingReconnect : Bool
deriving DecidableEq, Repr

/-- What `handleDisconnect` does besides updating state: schedule a retry
timer, surface the terminal error and force `disconnect()`, or nothing (the
disconnect was self-initiated). -/
inductive DisconnectAction where
  | schedule (delayMs : Nat)
  | terminal
  | selfInitiated
deriving DecidableEq, Repr

/-- Mirrors `SocketService.disconnect()`: guarded by `isDisconnecting`; cancels the
pending retry timer, releases the transport, and resets
`reconnectAttempts`/`isConnecting`/`isDisconnecting`. -/
def clientDisconnect (s : ConnState) : ConnState :=
  if s.isDisconnecting then s
  else { s with pendingReconnect := false, reconnectAttempts := 0,
                isConnecting := false, isDisconnecting := false }

/-- Mirrors `SocketService.handleDisconnect()` (`socketService.ts`): while not
self-initiated and attempts are below the maximum, schedule a reconnect after
`min(1000 * 2^attempts, 5000)` ms; on exhaustion surface the terminal error
and call `disconnect()`. -/
def handleDisconnect (s0 : ConnState) : ConnState × DisconnectAction :=
  let s := { s0 with isConnecting := false }
  if !s.isDisconnecting && decide (s.reconnectAttempts < s.maxReconnectAttempts) then
    ({ s with pendingReconnect := true },
      .schedule (min (1000 * 2 ^ s.reconnectAttempts) 5000))
  else if !s.isDisconnecting then
    (clientDisconnect s, .terminal)
  else (s, .selfInitiated)

/-- The body of the timer `handleDisconnect` schedules: increment the attempt
counter, then call `connect()` again. -/
def reconnectTimerFire (s : ConnState) : ConnState :=
  { s with pendingReconnect := false, reconnectAttempts := s.reconnectAttempts + 1 }

/-- The client's local projections of replicated state, holding the dynamic
values the store setters receive. `users` keeps each roster entry with the
numeric id the store dedups on. -/
structure ClientStore where
  content : JsVal
  language : JsVal
  users : List (Int × JsVal)
  cursors : List (Int × JsVal)
  selections : List (Int × JsVal)

/-- The zustand store's `addUser`: drop the insert when a user with the same
id is already present, else append. -/
def storeAddUser (store : ClientStore) (id : Int) (u : JsVal) : ClientStore :=
  if store.users.any (fun p => p.1 == id) then store
  else { store with users := store.users ++ [(id, u)] }

/-- Modelled from the spec: `storeHandlers.resetEditor`/`resetUser` perform a
"full local reset (editor + presence)"; the store's `reset()` restores default
content/language and clears roster, cursors and selections. -/
def resetLocal (_store : ClientStore) : ClientStore :=
  { content := .str DEFAULT_CONTENT, language := .str DEFAULT_LANGUAGE,
    users := [], cursors := [], selections := [] }

/-- The guarded statement `if (typeof payload.content === 'string')
setContent(payload.content)` of `handleSyncResponse`. -/
def applySyncContent (store : ClientStore) (payload : JsVal) : ClientStore :=
  match payload.fieldOpt "content" with
  | .str s => { store with content := JsVal.str s }
  | _ => store

/-- The guarded statement `if (typeof payload.language === 'string')
setLanguage(payload.language)` of `handleSyncResponse`. -/
def applySyncLanguage (store : ClientStore) (payload : JsVal) : ClientStore :=
  match payload.fieldOpt "language" with
  | .str s => { store with language := JsVal.str s }
  | _ => store

/-- The guarded roster loop of `handleSyncResponse`: when `payload.users` is
an array, `addUser` each entry that is truthy with a numeric `id` and a
string `username`. -/
def applySyncUsers (store : ClientStore) (payload : JsVal) : ClientStore :=
  match payload.fieldOpt "users" with
  | .arr us => us.foldl (fun acc u =>
      if u.truthy then
        match u.fieldOpt "id", u.fieldOpt "username" with
        | .num i, .str _ => storeAddUser acc i u
        | _, _ => acc
      else acc) store
  | _ => store

/-- Mirrors `SocketService.handleSyncResponse`: a falsy payload surfaces
"Invalid sync response received" and returns; otherwise (after the
initial-connection reset, if armed) the three guarded field applications run
in sequence. Returns the updated `isInitialConnection` flag, the store, and
the list of `onError` messages. -/
def handleSyncResponse (isInitial : Bool) (store : ClientStore) (payload : JsVal) :
    Bool × ClientStore × List String :=
  if !payload.truthy then (isInitial, store, ["Invalid sync response received"])
  else
    let flagStore : Bool × ClientStore :=
      if isInitial then (false, resetLocal store) else (isInitial, store)
    (flagStore.1,
      applySyncUsers (applySyncLanguage (applySyncContent flagStore.2 payload) payload) payload,
      [])

/-- Mirrors `SocketService.handleContentChange` on the client: apply whenever
`payload?.content` is truthy — there is no string type check here. -/
def clientContentChange (store : ClientStore) (payload : JsVal) : ClientStore :=
  if (payload.fieldOpt "content").truthy then
    { store with content := payload.fieldOpt "content" }
  else store

/-- A SYNC_RESPONSE payload of the documented snapshot shape
{content: string, language: string, users: array}; a payload failing this is
malformed with respect to the spec. -/
def syncResponseWellFormed (p : JsVal) : Bool :=
  (match p.fieldOpt "content" with | .str _ => true | _ => false) &&
  (match p.fieldOpt "language" with | .str _ => true | _ => false) &&
  (match p.fieldOpt "users" with | .arr _ => true | _ => false)

end Client

theorem getA_mem {κ β : Type} [DecidableEq κ] {l : List (κ × β)} {k : κ} {v : β}
    (h : getA l k = some v) : (k, v) ∈ l := by
  induction l with
  | nil => simp [getA] at h
  | cons p rest ih =>
    obtain ⟨a, b⟩ := p
    rw [getA] at h
    by_cases ha : a = k
    · rw [if_pos ha] at h
      injection h with h
      subst ha; subst h
      exact List.mem_cons_self _ _
    · rw [if_neg ha] at h
      exact List.mem_cons_of_mem _ (ih h)

theorem mem_delA_ne {κ β : Type} [DecidableEq κ] {l : List (κ × β)} {k : κ} {p : κ × β}
    (h : p ∈ delA l k) : p ∈ l ∧ p.1 ≠ k := by
  induction l with
  | nil => simp [delA] at h
  | cons q rest ih =>
    obtain ⟨a, b⟩ := q
    rw [delA] at h
    by_cases ha : a = k
    · rw [if_pos ha] at h
      exact ⟨List.mem_cons_of_mem _ (ih h).1, (ih h).2⟩
    · rw [if_neg ha] at h
      rcases List.mem_cons.mp h with h' | h'
      · subst h'
        exact ⟨List.mem_cons_self _ _, ha⟩
      · exact ⟨List.mem_cons_of_mem _ (ih h').1, (ih h').2⟩

theorem mem_setA_strong {κ β : Type} [DecidableEq κ] {l : List (κ × β)} {k : κ} {v : β}
    {p : κ × β} (h : p ∈ setA l k v) : p = (k, v) ∨ (p ∈ l ∧ p.1 ≠ k) := by
  rcases List.mem_cons.mp h with h' | h'
  · exact Or.inl h'
  · exact Or.inr (mem_delA_ne h')

theorem map_delA_sublist {κ β γ : Type} [DecidableEq κ] (l : List (κ × β)) (k : κ)
    (f : κ × β → γ) : List.Sublist ((delA l k).map f) (l.map f) :=
  (delA_sublist l k).map f

/-- The per-session registry invariant: every session in the map is non-empty,
holds at most `MAX_USERS_PER_SESSION` users, and has pairwise distinct
usernames. -/
def sessionOk (s : Session) : Prop :=
  s.users ≠ [] ∧ s.users.length ≤ MAX_USERS_PER_SESSION ∧
    (s.users.map (fun p => p.2.username)).Nodup

/-- The gateway invariant over all sessions. -/
def WorldInv (w : World) : Prop := ∀ p ∈ w.st.sessions, sessionOk p.2

theorem any_username_false {users : List (Nat × SUser)} {username : String}
    (h : users.any (fun p => p.2.username == username) = false) :
    username ∉ users.map (fun p => p.2.username) := by
  intro hmem
  rw [List.mem_map] at hmem
  obtain ⟨p, hp, hpu⟩ := hmem
  have : users.any (fun p => p.2.username == username) = true := by
    rw [List.any_eq_true]
    exact ⟨p, hp, by rw [hpu]; exact beq_self_eq_true username⟩
  rw [h] at this
  exact Bool.false_ne_true this

theorem sessionOk_addUser {s : Session} {uid : Nat} {user : SUser} {now : Nat}
    (hs : s.users = [] ∨ sessionOk s)
    (hlen : s.users.length < MAX_USERS_PER_SESSION)
    (hdup : s.users.any (fun p => p.2.username == user.username) = false) :
    sessionOk { s with users := setA s.users uid user, lastActive := now } := by
  have hnodup : (s.users.map (fun p => p.2.username)).Nodup := by
    rcases hs with hs | hs
    · rw [hs]; exact List.nodup_nil
    · exact hs.2.2
  refine ⟨setA_ne_nil _ _ _, ?_, ?_⟩
  · calc (setA s.users uid user).length ≤ s.users.length + 1 := length_setA_le _ _ _
      _ ≤ MAX_USERS_PER_SESSION := Nat.succ_le_of_lt hlen
  · show (user.username :: (delA s.users uid).map (fun p => p.2.username)).Nodup
    refine List.nodup_cons.mpr ⟨?_, ?_⟩
    · intro hmem
      exact any_username_false hdup
        ((map_delA_sublist s.users uid (fun p => p.2.username)).subset hmem)
    · exact hnodup.sublist (map_delA_sublist s.users uid (fun p => p.2.username))

theorem handleJoin_inv {st : ServerState} {c : Conn} {username : String} {now : Nat}
    (h : ∀ p ∈ st.sessions, sessionOk p.2) :
    ∀ p ∈ (handleJoin st c username now).1.sessions, sessionOk p.2 := by
  intro p hp
  unfold handleJoin at hp
  cases hg : getA st.sessions c.sessionId with
  | some s =>
    simp only [hg, Option.getD_some, Option.isSome_some, if_true] at hp
    by_cases hdup : s.users.any (fun q => q.2.username == username) = true
    · simp only [hdup, if_true] at hp
      exact h p hp
    · rw [Bool.not_eq_true] at hdup
      simp only [hdup, Bool.false_eq_true, if_false] at hp
      by_cases hfull : MAX_USERS_PER_SESSION ≤ s.users.length
      · simp only [hfull, if_true] at hp
        exact h p hp
      · simp only [hfull, if_false] at hp
        rcases mem_setA_strong hp with hq | hq
        · subst hq
          exact sessionOk_addUser (Or.inr (h _ (getA_mem hg))) (Nat.lt_of_not_le hfull) hdup
        · exact h p hq.1
  | none =>
    simp only [hg, Option.getD_none, Option.isSome_none, if_false] at hp
    simp only [List.any_nil, Bool.false_eq_true, if_false, List.length_nil] at hp
    have hfull : ¬ MAX_USERS_PER_SESSION ≤ 0 := by decide
    simp only [hfull, if_false] at hp
    rcases mem_setA_strong hp with hq | hq
    · subst hq
      refine ⟨setA_ne_nil _ _ _, ?_, ?_⟩
      · show (setA ([] : List (Nat × SUser)) st.currentUserId _).length ≤ _
        simp [setA, delA, MAX_USERS_PER_SESSION]
      · show ((setA ([] : List (Nat × SUser)) st.currentUserId _).map
          (fun p => p.2.username)).Nodup
        simp [setA, delA]
    · rcases mem_setA_strong hq.1 with hq' | hq'
      · exact absurd (congrArg Prod.fst hq') hq.2
      · exact h p hq'.1


theorem handleContentChange_inv {st : ServerState} {c : Conn} {content : String} {now : Nat}
    (h : ∀ p ∈ st.sessions, sessionOk p.2) :
    ∀ p ∈ (handleContentChange st c content now).1.sessions, sessionOk p.2 := by
  intro p hp
  unfold handleContentChange at hp
  cases hg : getA st.sessions c.sessionId with
  | some s =>
    cases hu : c.userId with
    | some uid =>
      simp only [hg, hu] at hp
      cases hgu : getA s.users uid with
      | some user =>
        simp only [hgu] at hp
        rcases mem_setA_strong hp with hq | hq
        · subst hq
          obtain ⟨h1, h2, h3⟩ := h _ (getA_mem hg)
          exact ⟨h1, h2, h3⟩
        · exact h p hq.1
      | none =>
        simp only [hgu] at hp
        rcases mem_setA_strong hp with hq | hq
        · subst hq
          obtain ⟨h1, h2, h3⟩ := h _ (getA_mem hg)
          exact ⟨h1, h2, h3⟩
        · exact h p hq.1
    | none =>
      simp only [hg, hu] at hp
      exact h p hp
  | none =>
    cases hu : c.userId with
    | some uid =>
      simp only [hg, hu] at hp
      exact h p hp
    | none =>
      simp only [hg, hu] at hp
      exact h p hp

theorem handleLanguageChange_inv {st : ServerState} {c : Conn} {language : String} {now : Nat}
    (h : ∀ p ∈ st.sessions, sessionOk p.2) :
    ∀ p ∈ (handleLanguageChange st c language now).1.sessions, sessionOk p.2 := by
  intro p hp
  unfold handleLanguageChange at hp
  cases hg : getA st.sessions c.sessionId with
  | some s =>
    cases hu : c.userId with
    | some uid =>
      simp only [hg, hu] at hp
      cases hgu : getA s.users uid with
      | some user =>
        simp only [hgu] at hp
        rcases mem_setA_strong hp with hq | hq
        · subst hq
          obtain ⟨h1, h2, h3⟩ := h _ (getA_mem hg)
          exact ⟨h1, h2, h3⟩
        · exact h p hq.1
      | none =>
        simp only [hgu] at hp
        rcases mem_setA_strong hp with hq | hq
        · subst hq
          obtain ⟨h1, h2, h3⟩ := h _ (getA_mem hg)
          exact ⟨h1, h2, h3⟩
        · exact h p hq.1
    | none =>
      simp only [hg, hu] at hp
      exact h p hp
  | none =>
    cases hu : c.userId with
    | some uid =>
      simp only [hg, hu] at hp
      exact h p hp
    | none =>
      simp only [hg, hu] at hp
      exact h p hp

theorem serverDisconnect_inv {st : ServerState} {c : Conn}
    (h : ∀ p ∈ st.sessions, sessionOk p.2) :
    ∀ p ∈ (serverDisconnect st c).1.sessions, sessionOk p.2 := by
  intro p hp
  unfold serverDisconnect at hp
  cases hg : getA st.sessions c.sessionId with
  | some s =>
    cases hu : c.userId with
    | some uid =>
      simp only [hg, hu] at hp
      cases hgu : getA s.users uid with
      | some user =>
        simp only [hgu] at hp
        by_cases hz : (delA s.users uid).length = 0
        · simp only [hz, if_true] at hp
          exact h p (mem_delA hp)
        · simp only [hz, if_false] at hp
          rcases mem_setA_strong hp with hq | hq
          · subst hq
            obtain ⟨_, h2, h3⟩ := h _ (getA_mem hg)
            refine ⟨?_, ?_, ?_⟩
            · show delA s.users uid ≠ []
              intro hnil
              exact hz (by rw [hnil]; rfl)
            · show (delA s.users uid).length ≤ MAX_USERS_PER_SESSION
              exact Nat.le_trans (length_delA_le _ _) h2
            · show ((delA s.users uid).map (fun q => q.2.username)).Nodup
              exact h3.sublist (map_delA_sublist s.users uid (fun q => q.2.username))
          · exact h p hq.1
      | none =>
        simp only [hgu] at hp
        exact h p hp
    | none =>
      simp only [hg, hu] at hp
      exact h p hp
  | none =>
    cases hu : c.userId with
    | some uid =>
      simp only [hg, hu] at hp
      exact h p hp
    | none =>
      simp only [hg, hu] at hp
      exact h p hp

theorem runHandler_inv {st : ServerState} {c : Conn} {event : MessageType} {payload : JsVal}
    {now : Nat} (h : ∀ p ∈ st.sessions, sessionOk p.2) :
    ∀ p ∈ (runHandler st c event payload now).1.sessions, sessionOk p.2 := by
  cases event <;> simp only [runHandler] <;>
    first
      | exact handleJoin_inv h
      | exact handleContentChange_inv h
      | exact handleLanguageChange_inv h
      | exact h

theorem wrapStep_inv {st : ServerState} {c : Conn} {event : MessageType} {payload : JsVal}
    {now : Nat} (h : ∀ p ∈ st.sessions, sessionOk p.2) :
    ∀ p ∈ (wrapStep st c event payload now).1.sessions, sessionOk p.2 := by
  intro p hp
  unfold wrapStep at hp
  by_cases hl : (st.rl.isRateLimited c.sid event now).2.1 = true
  · simp only [hl, if_true] at hp
    exact h p hp
  · rw [Bool.not_eq_true] at hl
    simp only [hl, Bool.false_eq_true, if_false] at hp
    cases hv : ValidationService.validateEventPayload event payload with
    | error e =>
      simp only [hv] at hp
      exact h p hp
    | ok r =>
      cases r with
      | some ve =>
        simp only [hv] at hp
        exact h p hp
      | none =>
        simp only [hv] at hp
        refine runHandler_inv ?_ p hp
        exact h

theorem stepWorld_inv {w : World} (h : WorldInv w) (e : WEvent) :
    WorldInv (stepWorld w e).1 := by
  intro p hp
  cases e with
  | connect cid sessionId =>
    simp only [stepWorld] at hp
    cases hv : ValidationService.validateSessionId sessionId with
    | some ve =>
      simp only [hv] at hp
      exact h p hp
    | none =>
      simp only [hv] at hp
      exact h p hp
  | msg cid event payload now =>
    simp only [stepWorld] at hp
    cases hc : getA w.conns cid with
    | some c =>
      simp only [hc] at hp
      by_cases hcon : c.connected = true
      · simp only [hcon, if_true] at hp
        by_cases hw : wrappedEvents.contains event = true
        · simp only [hw, if_true] at hp
          by_cases hcl : (wrapStep w.st c event payload now).2.2.closed = true
          · simp only [hcl, if_true] at hp
            exact serverDisconnect_inv (wrapStep_inv h) p hp
          · rw [Bool.not_eq_true] at hcl
            simp only [hcl, Bool.false_eq_true, if_false] at hp
            exact wrapStep_inv h p hp
        · rw [Bool.not_eq_true] at hw
          simp only [hw, Bool.false_eq_true, if_false] at hp
          by_cases hsr : event = MessageType.SYNC_REQUEST
          · simp only [hsr, if_true] at hp
            exact h p hp
          · simp only [hsr, if_false] at hp
            exact h p hp
      · rw [Bool.not_eq_true] at hcon
        simp only [hcon, Bool.false_eq_true, if_false] at hp
        exact h p hp
    | none =>
      simp only [hc] at hp
      exact h p hp
  | close cid =>
    simp only [stepWorld] at hp
    cases hc : getA w.conns cid with
    | some c =>
      simp only [hc] at hp
      by_cases hcon : c.connected = true
      · simp only [hcon, if_true] at hp
        exact serverDisconnect_inv h p hp
      · rw [Bool.not_eq_true] at hcon
        simp only [hcon, Bool.false_eq_true, if_false] at hp
        exact h p hp
    | none =>
      simp only [hc] at hp
      exact h p hp

theorem runEvents_inv_from {w : World} (h : WorldInv w) (evs : List WEvent) :
    WorldInv (runEvents w evs) := by
  induction evs generalizing w with
  | nil => exact h
  | cons e rest ih =>
    have hr : runEvents w (e :: rest) = runEvents (stepWorld w e).1 rest := rfl
    rw [hr]
    exact ih (stepWorld_inv h e)

theorem runEvents_inv (evs : List WEvent) : WorldInv (runEvents initialWorld evs) :=
  runEvents_inv_from (fun p hp => absurd hp (List.not_mem_nil p)) evs

/-- The counter state the limiter currently holds for a (client, event) pair. -/
def stateOf (rl : RateLimiter) (ev : MessageType) (cid : String) : Option RateLimitState :=
  getA ((getA rl.states ev).getD []) cid

theorem getA_map_val {κ β γ : Type} [DecidableEq κ] (l : List (κ × β)) (k : κ) (f : β → γ) :
    getA (l.map (fun p => (p.1, f p.2))) k = (getA l k).map f := by
  induction l with
  | nil => rfl
  | cons p rest ih =>
    obtain ⟨a, b⟩ := p
    by_cases ha : a = k
    · simp [getA, ha]
    · simp only [List.map_cons, getA, ha, if_false]
      exact ih

theorem getA_states_map_delA (states : List (MessageType × List (String × RateLimitState)))
    (ev : MessageType) (cid : String) :
    getA (states.map (fun p => (p.1, delA p.2 cid))) ev =
      (getA states ev).map (fun l => delA l cid) := by
  induction states with
  | nil => rfl
  | cons p rest ih =>
    obtain ⟨a, b⟩ := p
    by_cases ha : a = ev
    · simp [getA, ha]
    · simp only [List.map_cons, getA, ha, if_false]
      exact ih

theorem stateOf_clearClient (rl : RateLimiter) (ev : MessageType) (cid : String) :
    stateOf (rl.clearClient cid) ev cid = none := by
  show getA ((getA (rl.states.map (fun p => (p.1, delA p.2 cid))) ev).getD []) cid = none
  rw [getA_states_map_delA]
  cases getA rl.states ev with
  | none => rfl
  | some l =>
    simp only [Option.map_some', Option.getD_some]
    exact getA_delA_self l cid

theorem limits_clearClient (rl : RateLimiter) (cid : String) :
    (rl.clearClient cid).limits = rl.limits := rfl

theorem ite_triple {α β : Type} (c : Prop) [Decidable c] (a : α) (m : β) :
    (if c then (a, true, some m) else (a, false, none)) =
      (a, decide c, if c then some m else none) := by
  by_cases h : c <;> simp [h]

theorem isRateLimited_fresh {rl : RateLimiter} {cfg : RateLimitConfig} {ev : MessageType}
    {cid : String} (now : Nat) (hlim : getA rl.limits ev = some cfg)
    (hstart : stateOf rl ev cid = none ∨
      ∃ s0, stateOf rl ev cid = some s0 ∧ s0.resetTime < now) :
    stateOf (rl.isRateLimited cid ev now).1 ev cid =
      some ⟨1, now + cfg.windowMs⟩ ∧
    (rl.isRateLimited cid ev now).1.limits = rl.limits ∧
    (rl.isRateLimited cid ev now).2 =
      (decide (cfg.max < 1), if cfg.max < 1 then some cfg.message else none) := by
  have hnow : ¬ (now + cfg.windowMs < now) := Nat.not_lt.mpr (Nat.le_add_right now cfg.windowMs)
  unfold RateLimiter.isRateLimited
  rw [hlim]
  dsimp only
  rcases hstart with h0 | ⟨s0, hs0, hrt⟩
  · unfold stateOf at h0
    rw [h0]
    simp only [Option.getD_none, hnow, if_false, Nat.zero_add]
    rw [ite_triple]
    refine ⟨?_, rfl, rfl⟩
    unfold stateOf
    simp only [getA_setA_self, Option.getD_some]
  · unfold stateOf at hs0
    rw [hs0]
    simp only [Option.getD_some, hrt, if_true, Nat.zero_add]
    rw [ite_triple]
    refine ⟨?_, rfl, rfl⟩
    unfold stateOf
    simp only [getA_setA_self, Option.getD_some]

theorem isRateLimited_inWindow {rl : RateLimiter} {cfg : RateLimitConfig} {ev : MessageType}
    {cid : String} {now cnt rt : Nat} (hlim : getA rl.limits ev = some cfg)
    (hs : stateOf rl ev cid = some ⟨cnt, rt⟩) (hrt : ¬ (rt < now)) :
    stateOf (rl.isRateLimited cid ev now).1 ev cid = some ⟨cnt + 1, rt⟩ ∧
    (rl.isRateLimited cid ev now).1.limits = rl.limits ∧
    (rl.isRateLimited cid ev now).2 =
      (decide (cfg.max < cnt + 1), if cfg.max < cnt + 1 then some cfg.message else none) := by
  unfold RateLimiter.isRateLimited
  rw [hlim]
  dsimp only
  unfold stateOf at hs
  rw [hs]
  simp only [Option.getD_some, hrt, if_false]
  rw [ite_triple]
  refine ⟨?_, rfl, rfl⟩
  unfold stateOf
  simp only [getA_setA_self, Option.getD_some]

/-- Iterate `isRateLimited` for the same client, event and instant, returning
the final limiter together with the verdict of the last call. -/
def iterRL (rl : RateLimiter) (cid : String) (ev : MessageType) (now : Nat) :
    Nat → RateLimiter × Bool × Option String
  | 0 => (rl, false, none)
  | k + 1 => ((iterRL rl cid ev now k).1).isRateLimited cid ev now

theorem iterRL_spec {rl : RateLimiter} {cfg : RateLimitConfig} {ev : MessageType}
    {cid : String} (now : Nat) (hlim : getA rl.limits ev = some cfg)
    (hstart : stateOf rl ev cid = none ∨
      ∃ s0, stateOf rl ev cid = some s0 ∧ s0.resetTime < now) :
    ∀ k, 1 ≤ k →
      stateOf (iterRL rl cid ev now k).1 ev cid = some ⟨k, now + cfg.windowMs⟩ ∧
      (iterRL rl cid ev now k).1.limits = rl.limits ∧
      (iterRL rl cid ev now k).2 =
        (decide (cfg.max < k), if cfg.max < k then some cfg.message else none) := by
  intro k hk
  induction k with
  | zero => exact absurd hk (by decide)
  | succ n ih =>
    by_cases hn : n = 0
    · subst hn
      exact isRateLimited_fresh now hlim hstart
    · obtain ⟨hstate, hlimits, _⟩ := ih (Nat.one_le_iff_ne_zero.mpr hn)
      have hlim' : getA (iterRL rl cid ev now n).1.limits ev = some cfg := by
        rw [hlimits]; exact hlim
      have hrt : ¬ (now + cfg.windowMs < now) :=
        Nat.not_lt.mpr (Nat.le_add_right now cfg.windowMs)
      have hstep := isRateLimited_inWindow hlim' hstate hrt
      refine ⟨hstep.1, ?_, hstep.2.2⟩
      show ((iterRL rl cid ev now n).1.isRateLimited cid ev now).1.limits = rl.limits
      rw [hstep.2.1, hlimits]

theorem fieldStrict_of_ne {p : JsVal} (hp : p ≠ .undefined) (k : String) :
    p.fieldStrict k = .ok (p.fieldOpt k) := by
  cases p with
  | undefined => exact absurd rfl hp
  | str s => rfl
  | num n => rfl
  | obj fs => rfl
  | arr xs => rfl

theorem validate_join_ok {p : JsVal} {u : String}
    (hu : p.fieldOpt "username" = .str u)
    (hvu : ValidationService.validateUsername (.str u) = none) :
    ValidationService.validateEventPayload .JOIN p = .ok none := by
  have hp : p ≠ .undefined := by
    intro h
    subst h
    exact JsVal.noConfusion (hu : JsVal.undefined = JsVal.str u)
  show (p.fieldStrict "username").bind
    (fun x => pure (ValidationService.validateUsername x)) = .ok none
  rw [fieldStrict_of_ne hp, hu]
  show Except.ok (ValidationService.validateUsername (.str u)) = .ok none
  rw [hvu]

theorem validate_content_ok {p : JsVal} {s : String}
    (hc : p.fieldOpt "content" = .str s)
    (hv : ValidationService.validateContent (.str s) = none) :
    ValidationService.validateEventPayload .CONTENT_CHANGE p = .ok none := by
  have hp : p ≠ .undefined := by
    intro h
    subst h
    exact JsVal.noConfusion (hc : JsVal.undefined = JsVal.str s)
  show (p.fieldStrict "content").bind
    (fun x => pure (ValidationService.validateContent x)) = .ok none
  rw [fieldStrict_of_ne hp, hc]
  show Except.ok (ValidationService.validateContent (.str s)) = .ok none
  rw [hv]

theorem wrapStep_limited {st : ServerState} {c : Conn} {event : MessageType} {payload : JsVal}
    {now : Nat} {rl' : RateLimiter} {m : String}
    (hrl : st.rl.isRateLimited c.sid event now = (rl', true, some m)) :
    wrapStep st c event payload now =
      ({ st with rl := rl' }, c, ⟨[.error "RATE_LIMIT_EXCEEDED" m], [], false⟩) := by
  unfold wrapStep
  rw [hrl]
  rfl

theorem wrapStep_invalid {st : ServerState} {c : Conn} {event : MessageType} {payload : JsVal}
    {now : Nat} {rl' : RateLimiter} {ve : ValidationError}
    (hrl : st.rl.isRateLimited c.sid event now = (rl', false, none))
    (hv : ValidationService.validateEventPayload event payload = .ok (some ve)) :
    wrapStep st c event payload now =
      ({ st with rl := rl' }, c, ⟨[.error "VALIDATION_ERROR" ve.message], [], false⟩) := by
  unfold wrapStep
  rw [hrl]
  dsimp only
  rw [hv]
  rfl

theorem wrapStep_ok {st : ServerState} {c : Conn} {event : MessageType} {payload : JsVal}
    {now : Nat} {rl' : RateLimiter}
    (hrl : st.rl.isRateLimited c.sid event now = (rl', false, none))
    (hv : ValidationService.validateEventPayload event payload = .ok none) :
    wrapStep st c event payload now = runHandler { st with rl := rl' } c event payload now := by
  unfold wrapStep
  rw [hrl]
  dsimp only
  rw [hv]
  rfl

theorem stepWorld_msg_wrapped {w : World} {cid : String} {c : Conn} {event : MessageType}
    {payload : JsVal} {now : Nat}
    (hc : getA w.conns cid = some c) (hcon : c.connected = true)
    (hw : wrappedEvents.contains event = true) :
    stepWorld w (.msg cid event payload now) =
      (if (wrapStep w.st c event payload now).2.2.closed then
        ({ st := (serverDisconnect (wrapStep w.st c event payload now).1
              (wrapStep w.st c event payload now).2.1).1,
           conns := setA w.conns cid
             { (wrapStep w.st c event payload now).2.1 with connected := false } },
          (wrapStep w.st c event payload now).2.2)
      else
        ({ st := (wrapStep w.st c event payload now).1,
           conns := setA w.conns cid (wrapStep w.st c event payload now).2.1 },
          (wrapStep w.st c event payload now).2.2)) := by
  simp only [stepWorld, hc, hcon, hw, if_true]

theorem stepWorld_syncRequest {w : World} {cid : String} {c : Conn} {payload : JsVal}
    {now : Nat} (hc : getA w.conns cid = some c) (hcon : c.connected = true) :
    stepWorld w (.msg cid .SYNC_REQUEST payload now) = (w, handleSyncRequest w.st c) := by
  have hw : wrappedEvents.contains MessageType.SYNC_REQUEST = false := by decide
  simp only [stepWorld, hc, hcon, hw, if_true, Bool.false_eq_true, if_false]

theorem handleJoin_reject_dup {st : ServerState} {c : Conn} {username : String} {now : Nat}
    {s : Session} (hg : getA st.sessions c.sessionId = some s)
    (hdup : s.users.any (fun q => q.2.username == username) = true) :
    handleJoin st c username now =
      (st, c, ⟨[.error "DUPLICATE_USERNAME" "Username already taken"], [], true⟩) := by
  unfold handleJoin
  rw [hg]
  simp only [Option.getD_some, Option.isSome_some, if_true, hdup]

theorem handleJoin_reject_full {st : ServerState} {c : Conn} {username : String} {now : Nat}
    {s : Session} (hg : getA st.sessions c.sessionId = some s)
    (hdup : s.users.any (fun q => q.2.username == username) = false)
    (hfull : MAX_USERS_PER_SESSION ≤ s.users.length) :
    handleJoin st c username now =
      (st, c, ⟨[.error "SESSION_FULL" "Session is full"], [], true⟩) := by
  unfold handleJoin
  rw [hg]
  simp only [Option.getD_some, Option.isSome_some, if_true, hdup, Bool.false_eq_true,
    if_false, hfull]

theorem handleJoin_fresh {st : ServerState} {c : Conn} (username : String) (now : Nat)
    (hg : getA st.sessions c.sessionId = none) :
    (handleJoin st c username now).2.2.closed = false ∧
    getA (handleJoin st c username now).1.sessions c.sessionId =
      some { id := c.sessionId, content := DEFAULT_CONTENT, language := DEFAULT_LANGUAGE,
             lastActive := now,
             users := [(st.currentUserId,
               { id := st.currentUserId, username := username, color := getRandomColor,
                 lastActive := now, sessionId := c.sessionId })] } := by
  unfold handleJoin
  rw [hg]
  exact ⟨rfl, getA_setA_self _ _ _⟩

theorem serverDisconnect_noUser {st : ServerState} {c : Conn} (hu : c.userId = none) :
    serverDisconnect st c = ({ st with rl := st.rl.clearClient c.sid }, Output.empty) := by
  unfold serverDisconnect
  cases hg : getA st.sessions c.sessionId with
  | some s => rw [hu]
  | none => rw [hu]

theorem storeAddUser_fields (st : Client.ClientStore) (i : Int) (u : JsVal) :
    (Client.storeAddUser st i u).content = st.content ∧
    (Client.storeAddUser st i u).language = st.language := by
  unfold Client.storeAddUser
  by_cases h : st.users.any (fun p => p.1 == i) = true
  · rw [if_pos h]
    exact ⟨rfl, rfl⟩
  · rw [if_neg h]
    exact ⟨rfl, rfl⟩

theorem syncFold_fields (us : List JsVal) (st : Client.ClientStore) :
    (us.foldl (fun acc u =>
      if u.truthy then
        match u.fieldOpt "id", u.fieldOpt "username" with
        | .num i, .str _ => Client.storeAddUser acc i u
        | _, _ => acc
      else acc) st).content = st.content ∧
    (us.foldl (fun acc u =>
      if u.truthy then
        match u.fieldOpt "id", u.fieldOpt "username" with
        | .num i, .str _ => Client.storeAddUser acc i u
        | _, _ => acc
      else acc) st).language = st.language := by
  induction us generalizing st with
  | nil => exact ⟨rfl, rfl⟩
  | cons u rest ih =>
    rw [List.foldl_cons]
    have hstep : ((if u.truthy then
        match u.fieldOpt "id", u.fieldOpt "username" with
        | .num i, .str _ => Client.storeAddUser st i u
        | _, _ => st
      else st) : Client.ClientStore).content = st.content ∧
        ((if u.truthy then
        match u.fieldOpt "id", u.fieldOpt "username" with
        | .num i, .str _ => Client.storeAddUser st i u
        | _, _ => st
      else st) : Client.ClientStore).language = st.language := by
      by_cases ht : u.truthy = true
      · rw [if_pos ht]
        cases u.fieldOpt "id" <;> cases u.fieldOpt "username" <;>
          first
            | exact ⟨rfl, rfl⟩
            | exact storeAddUser_fields st _ u
      · rw [if_neg ht]
        exact ⟨rfl, rfl⟩
    obtain ⟨ih1, ih2⟩ := ih _
    exact ⟨ih1.trans hstep.1, ih2.trans hstep.2⟩

theorem applySyncUsers_fields (st : Client.ClientStore) (p : JsVal) :
    (Client.applySyncUsers st p).content = st.content ∧
    (Client.applySyncUsers st p).language = st.language := by
  unfold Client.applySyncUsers
  cases p.fieldOpt "users" with
  | arr us => exact syncFold_fields us st
  | undefined => exact ⟨rfl, rfl⟩
  | str s => exact ⟨rfl, rfl⟩
  | num n => exact ⟨rfl, rfl⟩
  | obj fs => exact ⟨rfl, rfl⟩

theorem applySyncContent_str {st : Client.ClientStore} {p : JsVal} {s : String}
    (h : p.fieldOpt "content" = .str s) :
    Client.applySyncContent st p = { st with content := .str s } := by
  unfold Client.applySyncContent
  rw [h]

theorem applySyncContent_other {st : Client.ClientStore} {p : JsVal}
    (h : ∀ s, p.fieldOpt "content" ≠ .str s) :
    Client.applySyncContent st p = st := by
  unfold Client.applySyncContent
  cases hc : p.fieldOpt "content" with
  | str s => exact absurd hc (h s)
  | undefined => rfl
  | num n => rfl
  | obj fs => rfl
  | arr xs => rfl

theorem applySyncLanguage_str {st : Client.ClientStore} {p : JsVal} {s : String}
    (h : p.fieldOpt "language" = .str s) :
    Client.applySyncLanguage st p = { st with language := .str s } := by
  unfold Client.applySyncLanguage
  rw [h]

theorem applySyncLanguage_other {st : Client.ClientStore} {p : JsVal}
    (h : ∀ s, p.fieldOpt "language" ≠ .str s) :
    Client.applySyncLanguage st p = st := by
  unfold Client.applySyncLanguage
  cases hc : p.fieldOpt "language" with
  | str s => exact absurd hc (h s)
  | undefined => rfl
  | num n => rfl
  | obj fs => rfl
  | arr xs => rfl

theorem applySyncLanguage_content (st : Client.ClientStore) (p : JsVal) :
    (Client.applySyncLanguage st p).content = st.content := by
  unfold Client.applySyncLanguage
  cases p.fieldOpt "language" with
  | str s => rfl
  | undefined => rfl
  | num n => rfl
  | obj fs => rfl
  | arr xs => rfl

theorem applySyncContent_rest (st : Client.ClientStore) (p : JsVal) :
    (Client.applySyncContent st p).language = st.language ∧
    (Client.applySyncContent st p).users = st.users := by
  unfold Client.applySyncContent
  cases p.fieldOpt "content" with
  | str s => exact ⟨rfl, rfl⟩
  | undefined => exact ⟨rfl, rfl⟩
  | num n => exact ⟨rfl, rfl⟩
  | obj fs => exact ⟨rfl, rfl⟩
  | arr xs => exact ⟨rfl, rfl⟩

theorem applySyncLanguage_users (st : Client.ClientStore) (p : JsVal) :
    (Client.applySyncLanguage st p).users = st.users := by
  unfold Client.applySyncLanguage
  cases p.fieldOpt "language" with
  | str s => rfl
  | undefined => rfl
  | num n => rfl
  | obj fs => rfl
  | arr xs => rfl

theorem applySyncUsers_other {st : Client.ClientStore} {p : JsVal}
    (h : ∀ l, p.fieldOpt "users" ≠ .arr l) :
    Client.applySyncUsers st p = st := by
  unfold Client.applySyncUsers
  cases hc : p.fieldOpt "users" with
  | arr l => exact absurd hc (h l)
  | undefined => rfl
  | num n => rfl
  | obj fs => rfl
  | str s => rfl

theorem handleSyncResponse_falsy {b : Bool} {st : Client.ClientStore} {p : JsVal}
    (hp : p.truthy = false) :
    Client.handleSyncResponse b st p = (b, st, ["Invalid sync response received"]) := by
  unfold Client.handleSyncResponse
  rw [hp]
  rfl

theorem handleSyncResponse_truthy {st : Client.ClientStore} {p : JsVal}
    (hp : p.truthy = true) :
    Client.handleSyncResponse false st p =
      (false,
        Client.applySyncUsers (Client.applySyncLanguage (Client.applySyncContent st p) p) p,
        []) := by
  unfold Client.handleSyncResponse
  rw [hp]
  rfl

/-- Claim C5: for a (connection, event) pair with a configured limit
{windowMs, max}, starting with no counter state, the first `max`
`isRateLimited` calls in a window return limited=false, the (max+1)-th
returns limited=true with the configured message; once the current time
strictly exceeds the window's reset time the counter resets and exactly `max`
further events pass before re-limiting; and after `clearClient` the
connection's next event is immediately un-limited. -/
theorem C5_rate_limiter_lifecycle (rl : RateLimiter) (cfg : RateLimitConfig)
    (ev : MessageType) (cid : String) (t0 t1 : Nat) (hmax : 1 ≤ cfg.max)
    (hlim : getA rl.limits ev = some cfg) (hfresh : stateOf rl ev cid = none)
    (ht : t0 + cfg.windowMs < t1) :
    (∀ k, 1 ≤ k → k ≤ cfg.max → (iterRL rl cid ev t0 k).2 = (false, none)) ∧
    (iterRL rl cid ev t0 (cfg.max + 1)).2 = (true, some cfg.message) ∧
    (∀ j, 1 ≤ j → j ≤ cfg.max →
      (iterRL (iterRL rl cid ev t0 (cfg.max + 1)).1 cid ev t1 j).2 = (false, none)) ∧
    (iterRL (iterRL rl cid ev t0 (cfg.max + 1)).1 cid ev t1 (cfg.max + 1)).2 =
      (true, some cfg.message) ∧
    (∀ t2, ((((iterRL (iterRL rl cid ev t0 (cfg.max + 1)).1 cid ev t1
        (cfg.max + 1)).1).clearClient cid).isRateLimited cid ev t2).2 = (false, none)) := by
  have spec0 := iterRL_spec t0 hlim (Or.inl hfresh)
  have hm1 : 1 ≤ cfg.max + 1 := by omega
  refine ⟨?_, ?_, ?_, ?_, ?_⟩
  · intro k hk1 hk2
    rw [(spec0 k hk1).2.2]
    simp [Nat.not_lt.mpr hk2]
  · rw [(spec0 (cfg.max + 1) hm1).2.2]
    simp [Nat.lt_succ_self]
  · intro j hj1 hj2
    have hlimA : getA (iterRL rl cid ev t0 (cfg.max + 1)).1.limits ev = some cfg := by
      rw [(spec0 (cfg.max + 1) hm1).2.1]
      exact hlim
    have specA := iterRL_spec t1 hlimA
      (Or.inr ⟨⟨cfg.max + 1, t0 + cfg.windowMs⟩, (spec0 (cfg.max + 1) hm1).1, ht⟩)
    rw [(specA j hj1).2.2]
    simp [Nat.not_lt.mpr hj2]
  · have hlimA : getA (iterRL rl cid ev t0 (cfg.max + 1)).1.limits ev = some cfg := by
      rw [(spec0 (cfg.max + 1) hm1).2.1]
      exact hlim
    have specA := iterRL_spec t1 hlimA
      (Or.inr ⟨⟨cfg.max + 1, t0 + cfg.windowMs⟩, (spec0 (cfg.max + 1) hm1).1, ht⟩)
    rw [(specA (cfg.max + 1) hm1).2.2]
    simp [Nat.lt_succ_self]
  · intro t2
    have hlimA : getA (iterRL rl cid ev t0 (cfg.max + 1)).1.limits ev = some cfg := by
      rw [(spec0 (cfg.max + 1) hm1).2.1]
      exact hlim
    have specA := iterRL_spec t1 hlimA
      (Or.inr ⟨⟨cfg.max + 1, t0 + cfg.windowMs⟩, (spec0 (cfg.max + 1) hm1).1, ht⟩)
    have hlimB : getA ((iterRL (iterRL rl cid ev t0 (cfg.max + 1)).1 cid ev t1
        (cfg.max + 1)).1.clearClient cid).limits ev = some cfg := by
      rw [limits_clearClient, (specA (cfg.max + 1) hm1).2.1, (spec0 (cfg.max + 1) hm1).2.1]
      exact hlim
    have hstep := isRateLimited_fresh t2 hlimB (Or.inl (stateOf_clearClient _ ev cid))
    rw [hstep.2.2]
    simp [Nat.not_lt.mpr hmax]

/-- Witness for C5 at the server's JOIN quota (5 per 60000 ms): calls 1-5 in
the first window pass, call 6 is limited with the configured message; after
the window expires 5 more pass and the 6th is limited again; `clearClient`
immediately un-limits. -/
theorem C5_rate_limiter_lifecycle_witness :
    (iterRL serverRateLimiter "a" .JOIN 0 5).2 = (false, none) ∧
    (iterRL serverRateLimiter "a" .JOIN 0 6).2 =
      (true, some "Too many join attempts. Please wait a moment before trying again.") ∧
    (iterRL (iterRL serverRateLimiter "a" .JOIN 0 6).1 "a" .JOIN 60001 5).2 = (false, none) ∧
    (iterRL (iterRL serverRateLimiter "a" .JOIN 0 6).1 "a" .JOIN 60001 6).2 =
      (true, some "Too many join attempts. Please wait a moment before trying again.") ∧
    ((((iterRL (iterRL serverRateLimiter "a" .JOIN 0 6).1 "a" .JOIN 60001 6).1).clearClient
      "a").isRateLimited "a" .JOIN 60002).2 = (false, none) := by
  have h := C5_rate_limiter_lifecycle serverRateLimiter
    { windowMs := 60000, max := 5,
      message := "Too many join attempts. Please wait a moment before trying again." }
    .JOIN "a" 0 60001 (by decide) (by rfl) (by rfl) (by decide)
  exact ⟨h.1 5 (by decide) (by decide), h.2.1, h.2.2.1 5 (by decide) (by decide),
    h.2.2.2.1, h.2.2.2.2 60002⟩

/-- Claim C8: on a non-self-initiated transport disconnect with k prior
reconnect attempts and the default maximum of 5, the client schedules a
reconnect after exactly min(1000*2^k, 5000) ms (a delay non-decreasing in k)
and the scheduled timer increments the attempt counter; once k reaches 5 it
surfaces the terminal error, forces disconnect(), and schedules no retry. -/
theorem C8_reconnect_backoff (s : Client.ConnState) (hd : s.isDisconnecting = false)
    (hmax : s.maxReconnectAttempts = 5) :
    (s.reconnectAttempts < 5 →
      Client.handleDisconnect s =
        ({ s with isConnecting := false, pendingReconnect := true },
          .schedule (min (1000 * 2 ^ s.reconnectAttempts) 5000)) ∧
      (Client.reconnectTimerFire (Client.handleDisconnect s).1).reconnectAttempts =
        s.reconnectAttempts + 1) ∧
    (min (1000 * 2 ^ s.reconnectAttempts) 5000 ≤
      min (1000 * 2 ^ (s.reconnectAttempts + 1)) 5000) ∧
    (5 ≤ s.reconnectAttempts →
      Client.handleDisconnect s =
        (Client.clientDisconnect { s with isConnecting := false }, .terminal) ∧
      (Client.handleDisconnect s).1.pendingReconnect = false) := by
  refine ⟨?_, ?_, ?_⟩
  · intro hk
    have hcond : (!({ s with isConnecting := false } : Client.ConnState).isDisconnecting &&
        decide (({ s with isConnecting := false } : Client.ConnState).reconnectAttempts <
          ({ s with isConnecting := false } : Client.ConnState).maxReconnectAttempts)) = true := by
      simp [hd, hmax, hk]
    unfold Client.handleDisconnect
    rw [if_pos hcond]
    exact ⟨rfl, rfl⟩
  · have h2 : (1000 : Nat) * 2 ^ s.reconnectAttempts ≤ 1000 * 2 ^ (s.reconnectAttempts + 1) :=
      Nat.mul_le_mul_left 1000 (Nat.pow_le_pow_right (by decide) (Nat.le_succ _))
    exact min_le_min h2 (le_refl 5000)
  · intro hk
    have hcond : (!({ s with isConnecting := false } : Client.ConnState).isDisconnecting &&
        decide (({ s with isConnecting := false } : Client.ConnState).reconnectAttempts <
          ({ s with isConnecting := false } : Client.ConnState).maxReconnectAttempts)) = false := by
      simp [hmax, Nat.not_lt.mpr hk]
    have hnd : ¬ (({ s with isConnecting := false } : Client.ConnState).isDisconnecting = true) := by
      simp [hd]
    have htr : (!({ s with isConnecting := false } : Client.ConnState).isDisconnecting) = true := by
      simp [hd]
    have hmain : Client.handleDisconnect s =
        (Client.clientDisconnect { s with isConnecting := false }, .terminal) := by
      unfold Client.handleDisconnect
      simp [htr, hmax, Nat.not_lt.mpr hk]
    refine ⟨hmain, ?_⟩
    rw [hmain]
    show (Client.clientDisconnect { s with isConnecting := false }).pendingReconnect = false
    unfold Client.clientDisconnect
    rw [if_neg hnd]

/-- Witness for C8 at concrete states: with 2 prior attempts the schedule is
min(1000*2^2, 5000) ms and the fired timer reaches 3 attempts; the delay is
non-decreasing from k=2 to k=3; with 5 prior attempts the handler returns the
terminal action and forces disconnect(). -/
theorem C8_reconnect_backoff_witness :
    (Client.handleDisconnect
        { reconnectAttempts := 2, maxReconnectAttempts := 5, isInitialConnection := false,
          isConnecting := true, isDisconnecting := false, pendingReconnect := false } =
      ({ reconnectAttempts := 2, maxReconnectAttempts := 5, isInitialConnection := false,
          isConnecting := false, isDisconnecting := false, pendingReconnect := true },
        .schedule (min (1000 * 2 ^ 2) 5000))) ∧
    (min (1000 * 2 ^ 2) 5000 ≤ min (1000 * 2 ^ 3) 5000) ∧
    (Client.handleDisconnect
        { reconnectAttempts := 5, maxReconnectAttempts := 5, isInitialConnection := false,
          isConnecting := true, isDisconnecting := false, pendingReconnect := false } =
      (Client.clientDisconnect
        { reconnectAttempts := 5, maxReconnectAttempts := 5, isInitialConnection := false,
          isConnecting := false, isDisconnecting := false, pendingReconnect := false },
        .terminal)) := by
  have h1 := C8_reconnect_backoff
    { reconnectAttempts := 2, maxReconnectAttempts := 5, isInitialConnection := false,
      isConnecting := true, isDisconnecting := false, pendingReconnect := false } rfl rfl
  have h2 := C8_reconnect_backoff
    { reconnectAttempts := 5, maxReconnectAttempts := 5, isInitialConnection := false,
      isConnecting := true, isDisconnecting := false, pendingReconnect := false } rfl rfl
  exact ⟨(h1.1 (by decide)).1, h1.2.1, (h2.2.2 (by decide)).1⟩

/-- Claim C6 (counterexample): `validateEventPayload(JOIN, undefined)` throws
a TypeError (modelled `Except.error`) from the property access
`payload.username`, so the function is not total on a missing/undefined
payload object, contrary to the claim. -/
theorem C6_validator_counterexample :
    ValidationService.validateEventPayload .JOIN .undefined = .error () := rfl

/-- Claim C6 (amended): for every event type and every defined (non-undefined)
payload value, `validateEventPayload` returns pass or a structured
VALIDATION_ERROR, never any other outcome; events without a payload shape
(LEAVE, SYNC_REQUEST, UNDO, REDO) always pass, even on an undefined payload;
but an undefined payload makes the five typed events throw. -/
theorem C6_validator_totality (t : MessageType) (p q : JsVal) (hp : p ≠ .undefined) :
    (∃ r, ValidationService.validateEventPayload t p = .ok r) ∧
    ValidationService.validateEventPayload .LEAVE q = .ok none ∧
    ValidationService.validateEventPayload .SYNC_REQUEST q = .ok none ∧
    ValidationService.validateEventPayload .UNDO q = .ok none ∧
    ValidationService.validateEventPayload .REDO q = .ok none := by
  refine ⟨?_, rfl, rfl, rfl, rfl⟩
  cases t with
  | JOIN =>
    refine ⟨ValidationService.validateUsername (p.fieldOpt "username"), ?_⟩
    show (p.fieldStrict "username").bind
      (fun x => pure (ValidationService.validateUsername x)) = _
    rw [fieldStrict_of_ne hp]
    rfl
  | CONTENT_CHANGE =>
    refine ⟨ValidationService.validateContent (p.fieldOpt "content"), ?_⟩
    show (p.fieldStrict "content").bind
      (fun x => pure (ValidationService.validateContent x)) = _
    rw [fieldStrict_of_ne hp]
    rfl
  | LANGUAGE_CHANGE =>
    refine ⟨ValidationService.validateLanguage (p.fieldOpt "language"), ?_⟩
    show (p.fieldStrict "language").bind
      (fun x => pure (ValidationService.validateLanguage x)) = _
    rw [fieldStrict_of_ne hp]
    rfl
  | CURSOR_MOVE =>
    refine ⟨ValidationService.validatePosition (p.fieldOpt "position"), ?_⟩
    show (p.fieldStrict "position").bind
      (fun x => pure (ValidationService.validatePosition x)) = _
    rw [fieldStrict_of_ne hp]
    rfl
  | SELECTION_CHANGE =>
    refine ⟨ValidationService.validateSelection (p.fieldOpt "selection"), ?_⟩
    show (p.fieldStrict "selection").bind
      (fun x => pure (ValidationService.validateSelection x)) = _
    rw [fieldStrict_of_ne hp]
    rfl
  | LEAVE => exact ⟨none, rfl⟩
  | USER_JOINED => exact ⟨none, rfl⟩
  | USER_LEFT => exact ⟨none, rfl⟩
  | ERROR => exact ⟨none, rfl⟩
  | UNDO_REDO_STACK => exact ⟨none, rfl⟩
  | UNDO => exact ⟨none, rfl⟩
  | REDO => exact ⟨none, rfl⟩
  | SYNC_RESPONSE => exact ⟨none, rfl⟩
  | SYNC_REQUEST => exact ⟨none, rfl⟩

/-- Witness for C6 (amended) at a concrete JOIN payload and an undefined
payload for the shapeless events. -/
theorem C6_validator_totality_witness :
    (∃ r, ValidationService.validateEventPayload .JOIN
      (.obj [("username", .str "bob")]) = .ok r) ∧
    ValidationService.validateEventPayload .LEAVE .undefined = .ok none ∧
    ValidationService.validateEventPayload .SYNC_REQUEST .undefined = .ok none ∧
    ValidationService.validateEventPayload .UNDO .undefined = .ok none ∧
    ValidationService.validateEventPayload .REDO .undefined = .ok none :=
  C6_validator_totality .JOIN (.obj [("username", .str "bob")]) .undefined
    (fun h => JsVal.noConfusion h)

/-- A concrete client store used to exercise the inbound handlers. -/
def sampleStore : Client.ClientStore :=
  { content := .str DEFAULT_CONTENT, language := .str DEFAULT_LANGUAGE,
    users := [], cursors := [], selections := [] }

/-- Claim C9 (counterexample): the empty object is a truthy SYNC_RESPONSE
payload that matches no field of the documented snapshot shape, yet the
handler surfaces no error through the error callback (the code only errors on
a falsy payload) — contradicting "a malformed SYNC_RESPONSE additionally
surfaces an explicit error". -/
theorem C9_inbound_counterexample :
    Client.syncResponseWellFormed (.obj []) = false ∧
    Client.handleSyncResponse false sampleStore (.obj []) = (false, sampleStore, []) :=
  ⟨rfl, rfl⟩

/-- Claim C9 (amended): outside the initial-connection reset, inbound
SYNC_RESPONSE payloads are guarded per field: a falsy payload is dropped
without mutating any local projection and surfaces the explicit error; a
truthy payload surfaces no error, applies content/language only when they are
strings, leaves them unchanged otherwise, and leaves the roster unchanged
when `users` is not an array. CONTENT_CHANGE is guarded only by truthiness of
`payload?.content`: a falsy field is dropped without mutation, a truthy field
is applied as-is (even when it is not a string). -/
theorem C9_inbound_guards (b : Bool) (st : Client.ClientStore) (p : JsVal)
    (hb : b = false) :
    (p.truthy = false →
      Client.handleSyncResponse b st p = (b, st, ["Invalid sync response received"])) ∧
    (p.truthy = true →
      (Client.handleSyncResponse b st p).2.2 = [] ∧
      (∀ s, p.fieldOpt "content" = .str s →
        (Client.handleSyncResponse b st p).2.1.content = .str s) ∧
      ((∀ s, p.fieldOpt "content" ≠ .str s) →
        (Client.handleSyncResponse b st p).2.1.content = st.content) ∧
      (∀ s, p.fieldOpt "language" = .str s →
        (Client.handleSyncResponse b st p).2.1.language = .str s) ∧
      ((∀ s, p.fieldOpt "language" ≠ .str s) →
        (Client.handleSyncResponse b st p).2.1.language = st.language) ∧
      ((∀ l, p.fieldOpt "users" ≠ .arr l) →
        (Client.handleSyncResponse b st p).2.1.users = st.users)) ∧
    ((p.fieldOpt "content").truthy = false → Client.clientContentChange st p = st) ∧
    ((p.fieldOpt "content").truthy = true →
      Client.clientContentChange st p = { st with content := p.fieldOpt "content" }) := by
  subst hb
  refine ⟨?_, ?_, ?_, ?_⟩
  · intro hp
    exact handleSyncResponse_falsy hp
  · intro hp
    refine ⟨?_, ?_, ?_, ?_, ?_, ?_⟩
    · rw [handleSyncResponse_truthy hp]
    · intro s hs
      rw [handleSyncResponse_truthy hp]
      show (Client.applySyncUsers (Client.applySyncLanguage
        (Client.applySyncContent st p) p) p).content = .str s
      rw [(applySyncUsers_fields _ _).1, applySyncLanguage_content, applySyncContent_str hs]
    · intro hs
      rw [handleSyncResponse_truthy hp]
      show (Client.applySyncUsers (Client.applySyncLanguage
        (Client.applySyncContent st p) p) p).content = st.content
      rw [(applySyncUsers_fields _ _).1, applySyncLanguage_content, applySyncContent_other hs]
    · intro s hs
      rw [handleSyncResponse_truthy hp]
      show (Client.applySyncUsers (Client.applySyncLanguage
        (Client.applySyncContent st p) p) p).language = .str s
      rw [(applySyncUsers_fields _ _).2, applySyncLanguage_str hs]
    · intro hs
      rw [handleSyncResponse_truthy hp]
      show (Client.applySyncUsers (Client.applySyncLanguage
        (Client.applySyncContent st p) p) p).language = st.language
      rw [(applySyncUsers_fields _ _).2, applySyncLanguage_other hs,
        (applySyncContent_rest _ _).1]
    · intro hu
      rw [handleSyncResponse_truthy hp]
      show (Client.applySyncUsers (Client.applySyncLanguage
        (Client.applySyncContent st p) p) p).users = st.users
      rw [applySyncUsers_other hu, applySyncLanguage_users, (applySyncContent_rest _ _).2]
  · intro hc
    unfold Client.clientContentChange
    rw [if_neg (by rw [hc]; exact fun h => Bool.false_ne_true h)]
  · intro hc
    unfold Client.clientContentChange
    rw [if_pos hc]

/-- Witness for C9 (amended): a SYNC_RESPONSE carrying only a string content
is applied without error; a falsy SYNC_RESPONSE surfaces the explicit error;
CONTENT_CHANGE applies a truthy content field as-is. -/
theorem C9_inbound_guards_witness :
    (Client.handleSyncResponse false sampleStore (.obj [("content", .str "hi")])).2.2 = [] ∧
    (Client.handleSyncResponse false sampleStore
      (.obj [("content", .str "hi")])).2.1.content = .str "hi" ∧
    Client.clientContentChange sampleStore (.obj [("content", .str "hi")]) =
      { sampleStore with content := JsVal.str "hi" } ∧
    Client.handleSyncResponse false sampleStore .undefined =
      (false, sampleStore, ["Invalid sync response received"]) := by
  have h1 := C9_inbound_guards false sampleStore (.obj [("content", .str "hi")]) rfl
  have h2 := C9_inbound_guards false sampleStore .undefined rfl
  exact ⟨(h1.2.1 rfl).1, (h1.2.1 rfl).2.1 "hi" rfl, h1.2.2.2 rfl, h2.1 rfl⟩

/-- A user record as the JOIN handler creates it in session "room". -/
def mkRoomUser (i : Nat) (name : String) : SUser :=
  { id := i, username := name, color := getRandomColor, lastActive := 0, sessionId := "room" }

def fullSession : Session :=
  { id := "room", content := "shared doc", language := "python", lastActive := 0,
    users := [(1, mkRoomUser 1 "alice"), (2, mkRoomUser 2 "bob"), (3, mkRoomUser 3 "carol"),
              (4, mkRoomUser 4 "dave"), (5, mkRoomUser 5 "erin")] }

def fullConn : Conn := { sid := "c6", sessionId := "room", userId := none, connected := true }

/-- A gateway with session "room" at capacity and a fresh sixth connection. -/
def fullWorld : World :=
  { st := { sessions := [("room", fullSession)], currentUserId := 6, rl := serverRateLimiter },
    conns := [("c6", fullConn)] }

def soloUser : SUser := mkRoomUser 1 "alice"

def soloSession : Session :=
  { id := "room", content := "shared doc", language := "python", lastActive := 0,
    users := [(1, soloUser)] }

def soloConn : Conn := { sid := "c1", sessionId := "room", userId := some 1, connected := true }

/-- A gateway with a single joined member in session "room". -/
def soloWorld : World :=
  { st := { sessions := [("room", soloSession)], currentUserId := 2, rl := serverRateLimiter },
    conns := [("c1", soloConn)] }

/-- A connect followed by a successful JOIN, from the initial gateway state. -/
def joinEvs : List WEvent :=
  [.connect "c1" "room", .msg "c1" .JOIN (.obj [("username", .str "alice")]) 0]

/-- The session `joinEvs` produces. -/
def joinSession : Session :=
  { id := "room", content := DEFAULT_CONTENT, language := DEFAULT_LANGUAGE, lastActive := 0,
    users := [(1, mkRoomUser 1 "alice")] }

/-- Claim C1 (counterexample): with session "room" already at 5 members, a
JOIN whose username collides with a member yields DUPLICATE_USERNAME, not the
SESSION_FULL the claim requires for every JOIN arriving at capacity — the
duplicate-username check runs before the capacity check. -/
theorem C1_session_cap_counterexample :
    MAX_USERS_PER_SESSION ≤ fullSession.users.length ∧
    (stepWorld fullWorld (.msg "c6" .JOIN (.obj [("username", .str "alice")]) 0)).2 =
      ⟨[.error "DUPLICATE_USERNAME" "Username already taken"], [], true⟩ ∧
    (stepWorld fullWorld (.msg "c6" .JOIN (.obj [("username", .str "alice")]) 0)).2.toSelf ≠
      [.error "SESSION_FULL" "Session is full"] := by
  refine ⟨by decide, by rfl, by decide⟩

/-- Claim C1 (amended): after every completed event handler every session
holds at most MAX_USERS_PER_SESSION (= 5) users; and a JOIN from a connection
that has not itself completed JOIN, carrying a valid username matching no
current member, arriving when the session is already at 5 users, emits
ERROR{SESSION_FULL} to the joining connection only, closes that connection,
and leaves the session map (membership, content, language) unchanged. -/
theorem C1_session_cap :
    (∀ evs : List WEvent, ∀ p ∈ (runEvents initialWorld evs).st.sessions,
      p.2.users.length ≤ MAX_USERS_PER_SESSION) ∧
    (∀ (w : World) (cid u : String) (c : Conn) (payload : JsVal) (now : Nat)
      (rl' : RateLimiter) (s : Session),
      getA w.conns cid = some c → c.connected = true → c.userId = none →
      w.st.rl.isRateLimited c.sid .JOIN now = (rl', false, none) →
      payload.fieldOpt "username" = .str u →
      ValidationService.validateUsername (.str u) = none →
      getA w.st.sessions c.sessionId = some s →
      s.users.any (fun q => q.2.username == u) = false →
      MAX_USERS_PER_SESSION ≤ s.users.length →
      (stepWorld w (.msg cid .JOIN payload now)).2 =
        ⟨[.error "SESSION_FULL" "Session is full"], [], true⟩ ∧
      (stepWorld w (.msg cid .JOIN payload now)).1.st.sessions = w.st.sessions ∧
      getA (stepWorld w (.msg cid .JOIN payload now)).1.conns cid =
        some { c with connected := false }) := by
  constructor
  · intro evs p hp
    exact (runEvents_inv evs p hp).2.1
  · intro w cid u c payload now rl' s hc hcon hu0 hrl hu hvu hg hdup hfull
    have hv := validate_join_ok hu hvu
    have hwc : wrappedEvents.contains MessageType.JOIN = true := by decide
    have hg1 : getA ({ w.st with rl := rl' } : ServerState).sessions c.sessionId = some s := hg
    have hstring : (payload.fieldOpt "username").asString = u := by
      rw [hu]
      rfl
    have hws : wrapStep w.st c .JOIN payload now =
        handleJoin { w.st with rl := rl' } c (payload.fieldOpt "username").asString now :=
      wrapStep_ok hrl hv
    rw [hstring, handleJoin_reject_full hg1 hdup hfull] at hws
    rw [stepWorld_msg_wrapped hc hcon hwc, hws]
    dsimp only
    rw [serverDisconnect_noUser hu0]
    exact ⟨rfl, rfl, getA_setA_self _ _ _⟩

/-- Witness for C1 (amended): the session created by a connect+JOIN run is
within the cap, and a 6th JOIN as "frank" on the full session is rejected
with SESSION_FULL, closed, and mutates nothing. -/
theorem C1_session_cap_witness :
    joinSession.users.length ≤ MAX_USERS_PER_SESSION ∧
    (stepWorld fullWorld (.msg "c6" .JOIN (.obj [("username", .str "frank")]) 0)).2 =
      ⟨[.error "SESSION_FULL" "Session is full"], [], true⟩ ∧
    (stepWorld fullWorld (.msg "c6" .JOIN (.obj [("username", .str "frank")]) 0)).1.st.sessions =
      fullWorld.st.sessions ∧
    getA (stepWorld fullWorld (.msg "c6" .JOIN (.obj [("username", .str "frank")]) 0)).1.conns
      "c6" = some { fullConn with connected := false } := by
  have h := C1_session_cap
  refine ⟨h.1 joinEvs ("room", joinSession)
    (show ("room", joinSession) ∈ [("room", joinSession)] from List.mem_singleton.mpr rfl), ?_⟩
  exact h.2 fullWorld "c6" "frank" fullConn (.obj [("username", .str "frank")]) 0
    (serverRateLimiter.isRateLimited "c6" .JOIN 0).1 fullSession rfl rfl rfl rfl rfl
    (by decide) rfl (by decide) (by decide)

/-- Claim C2 (counterexample): a JOIN whose username matches a member does
emit DUPLICATE_USERNAME and closes the connection, but when the rejected
connection had itself completed JOIN earlier, the forced disconnect removes
that member — here the session's sole member — so the membership (indeed the
whole session) does not stay unchanged as the claim requires. -/
theorem C2_username_unique_counterexample :
    getA soloWorld.st.sessions "room" = some soloSession ∧
    (stepWorld soloWorld (.msg "c1" .JOIN (.obj [("username", .str "alice")]) 0)).2 =
      ⟨[.error "DUPLICATE_USERNAME" "Username already taken"], [], true⟩ ∧
    getA (stepWorld soloWorld
      (.msg "c1" .JOIN (.obj [("username", .str "alice")]) 0)).1.st.sessions "room" = none := by
  refine ⟨rfl, rfl, rfl⟩

/-- Claim C2 (amended): after every completed event handler no two users in a
session share a username; and a JOIN from a connection that has not itself
completed JOIN, whose (valid) username exactly matches a current member's,
emits ERROR{DUPLICATE_USERNAME} to the joining connection only, closes that
connection, and leaves the session map unchanged. (A rejected re-JOIN from an
already-joined connection additionally removes that member via the forced
disconnect, which is why the fresh-connection qualifier is needed.) -/
theorem C2_username_unique :
    (∀ evs : List WEvent, ∀ p ∈ (runEvents initialWorld evs).st.sessions,
      (p.2.users.map (fun q => q.2.username)).Nodup) ∧
    (∀ (w : World) (cid u : String) (c : Conn) (payload : JsVal) (now : Nat)
      (rl' : RateLimiter) (s : Session),
      getA w.conns cid = some c → c.connected = true → c.userId = none →
      w.st.rl.isRateLimited c.sid .JOIN now = (rl', false, none) →
      payload.fieldOpt "username" = .str u →
      ValidationService.validateUsername (.str u) = none →
      getA w.st.sessions c.sessionId = some s →
      s.users.any (fun q => q.2.username == u) = true →
      (stepWorld w (.msg cid .JOIN payload now)).2 =
        ⟨[.error "DUPLICATE_USERNAME" "Username already taken"], [], true⟩ ∧
      (stepWorld w (.msg cid .JOIN payload now)).1.st.sessions = w.st.sessions ∧
      getA (stepWorld w (.msg cid .JOIN payload now)).1.conns cid =
        some { c with connected := false }) := by
  constructor
  · intro evs p hp
    exact (runEvents_inv evs p hp).2.2
  · intro w cid u c payload now rl' s hc hcon hu0 hrl hu hvu hg hdup
    have hv := validate_join_ok hu hvu
    have hwc : wrappedEvents.contains MessageType.JOIN = true := by decide
    have hg1 : getA ({ w.st with rl := rl' } : ServerState).sessions c.sessionId = some s := hg
    have hstring : (payload.fieldOpt "username").asString = u := by
      rw [hu]
      rfl
    have hws : wrapStep w.st c .JOIN payload now =
        handleJoin { w.st with rl := rl' } c (payload.fieldOpt "username").asString now :=
      wrapStep_ok hrl hv
    rw [hstring, handleJoin_reject_dup hg1 hdup] at hws
    rw [stepWorld_msg_wrapped hc hcon hwc, hws]
    dsimp only
    rw [serverDisconnect_noUser hu0]
    exact ⟨rfl, rfl, getA_setA_self _ _ _⟩

/-- Witness for C2 (amended): the session reached by a connect+JOIN run has
pairwise distinct usernames, and a fresh 6th connection joining the full
session as "alice" is rejected with DUPLICATE_USERNAME, closed, and mutates
nothing. -/
theorem C2_username_unique_witness :
    (joinSession.users.map (fun q => q.2.username)).Nodup ∧
    (stepWorld fullWorld (.msg "c6" .JOIN (.obj [("username", .str "alice")]) 0)).2 =
      ⟨[.error "DUPLICATE_USERNAME" "Username already taken"], [], true⟩ ∧
    (stepWorld fullWorld (.msg "c6" .JOIN (.obj [("username", .str "alice")]) 0)).1.st.sessions =
      fullWorld.st.sessions ∧
    getA (stepWorld fullWorld (.msg "c6" .JOIN (.obj [("username", .str "alice")]) 0)).1.conns
      "c6" = some { fullConn with connected := false } := by
  have h := C2_username_unique
  refine ⟨h.1 joinEvs ("room", joinSession)
    (show ("room", joinSession) ∈ [("room", joinSession)] from List.mem_singleton.mpr rfl), ?_⟩
  exact h.2 fullWorld "c6" "alice" fullConn (.obj [("username", .str "alice")]) 0
    (serverRateLimiter.isRateLimited "c6" .JOIN 0).1 fullSession rfl rfl rfl rfl rfl
    (by decide) rfl (by decide)

/-- A gateway whose connection "c1" points at session id "room" for which no
session exists. -/
def lostSessionWorld : World :=
  { st := { sessions := [], currentUserId := 2, rl := serverRateLimiter },
    conns := [("c1", soloConn)] }

/-- A gateway with a fresh, not-yet-joined connection and no sessions. -/
def emptyRoomWorld : World :=
  { st := { sessions := [], currentUserId := 1, rl := serverRateLimiter },
    conns := [("c1", { sid := "c1", sessionId := "room", userId := none, connected := true })] }

/-- Claim C3: a session id is in the map only with non-empty membership
(observed between completed handlers); the disconnect of a session's last
member deletes the session entirely (broadcasting USER_LEFT); and a JOIN on a
session id with no live session creates a fresh session whose content and
language are the default values — never any previous content. -/
theorem C3_session_lifecycle :
    (∀ evs : List WEvent, ∀ sid s,
      getA (runEvents initialWorld evs).st.sessions sid = some s → s.users ≠ []) ∧
    (∀ (w : World) (cid : String) (c : Conn) (uid : Nat) (u1 : SUser) (s : Session),
      getA w.conns cid = some c → c.connected = true → c.userId = some uid →
      getA w.st.sessions c.sessionId = some s → s.users = [(uid, u1)] →
      getA (stepWorld w (.close cid)).1.st.sessions c.sessionId = none ∧
      (stepWorld w (.close cid)).2.toRoom = [.userLeft u1]) ∧
    (∀ (w : World) (cid u : String) (c : Conn) (payload : JsVal) (now : Nat)
      (rl' : RateLimiter),
      getA w.conns cid = some c → c.connected = true →
      w.st.rl.isRateLimited c.sid .JOIN now = (rl', false, none) →
      payload.fieldOpt "username" = .str u →
      ValidationService.validateUsername (.str u) = none →
      getA w.st.sessions c.sessionId = none →
      getA (stepWorld w (.msg cid .JOIN payload now)).1.st.sessions c.sessionId =
        some { id := c.sessionId, content := DEFAULT_CONTENT, language := DEFAULT_LANGUAGE,
               lastActive := now,
               users := [(w.st.currentUserId,
                 { id := w.st.currentUserId, username := u, color := getRandomColor,
                   lastActive := now, sessionId := c.sessionId })] }) := by
  refine ⟨?_, ?_, ?_⟩
  · intro evs sid s hg
    exact (runEvents_inv evs (sid, s) (getA_mem hg)).1
  · intro w cid c uid u1 s hc hcon huid hg husers
    simp only [stepWorld, hc, hcon, if_true]
    have hgu : getA s.users uid = some u1 := by
      rw [husers]
      simp [getA]
    unfold serverDisconnect
    rw [hg, huid]
    dsimp only
    rw [hgu]
    dsimp only
    rw [husers]
    have hdel : delA [(uid, u1)] uid = [] := by simp [delA]
    rw [hdel]
    rw [if_pos (show ([] : List (Nat × SUser)).length = 0 from rfl)]
    exact ⟨getA_delA_self _ _, rfl⟩
  · intro w cid u c payload now rl' hc hcon hrl hu hvu hg
    have hv := validate_join_ok hu hvu
    have hwc : wrappedEvents.contains MessageType.JOIN = true := by decide
    have hg1 : getA ({ w.st with rl := rl' } : ServerState).sessions c.sessionId = none := hg
    have hstring : (payload.fieldOpt "username").asString = u := by
      rw [hu]
      rfl
    have hws : wrapStep w.st c .JOIN payload now =
        handleJoin { w.st with rl := rl' } c (payload.fieldOpt "username").asString now :=
      wrapStep_ok hrl hv
    rw [hstring] at hws
    have hfr := handleJoin_fresh u now hg1
    rw [stepWorld_msg_wrapped hc hcon hwc, hws]
    rw [if_neg (by rw [hfr.1]; exact fun hh => Bool.false_ne_true hh)]
    exact hfr.2

/-- Witness for C3: after a connect+JOIN run the session has non-empty
membership; closing the solo member's connection deletes "room" and
broadcasts USER_LEFT; a JOIN on a session-less id creates the session with
default content and language. -/
theorem C3_session_lifecycle_witness :
    joinSession.users ≠ [] ∧
    getA (stepWorld soloWorld (.close "c1")).1.st.sessions "room" = none ∧
    (stepWorld soloWorld (.close "c1")).2.toRoom = [.userLeft soloUser] ∧
    getA (stepWorld emptyRoomWorld
      (.msg "c1" .JOIN (.obj [("username", .str "alice")]) 0)).1.st.sessions "room" =
      some { id := "room", content := DEFAULT_CONTENT, language := DEFAULT_LANGUAGE,
             lastActive := 0, users := [(1, mkRoomUser 1 "alice")] } := by
  have h := C3_session_lifecycle
  have hb := h.2.1 soloWorld "c1" soloConn 1 soloUser soloSession rfl rfl rfl rfl rfl
  have hcnew := h.2.2 emptyRoomWorld "c1" "alice"
    { sid := "c1", sessionId := "room", userId := none, connected := true }
    (.obj [("username", .str "alice")]) 0
    (serverRateLimiter.isRateLimited "c1" .JOIN 0).1 rfl rfl rfl rfl (by decide) rfl
  exact ⟨h.1 joinEvs "room" joinSession rfl, hb.1, hb.2, hcnew⟩

/-- Hypotheses of one clean CONTENT_CHANGE towards session `S`: the sender is
a connected socket that has completed JOIN into the live session S, the event
is not rate-limited at this instant, and the content payload is valid. -/
def CStep (S : String) (w : World) (cid content : String) (now : Nat) : Prop :=
  ∃ c : Conn, getA w.conns cid = some c ∧ c.connected = true ∧ c.sessionId = S ∧
    c.userId.isSome = true ∧ (getA w.st.sessions S).isSome = true ∧
    (∃ rl', w.st.rl.isRateLimited c.sid .CONTENT_CHANGE now = (rl', false, none)) ∧
    ValidationService.validateContent (.str content) = none

/-- A sequence of clean CONTENT_CHANGE events processed in arrival order,
each as a full gateway step (wrapper included). -/
inductive ContentRun (S : String) : World → List (String × String × Nat) → World → Prop where
  | nil (w : World) : ContentRun S w [] w
  | cons (w w' : World) (cid content : String) (now : Nat)
      (evs : List (String × String × Nat)) :
      CStep S w cid content now →
      ContentRun S (stepWorld w (.msg cid .CONTENT_CHANGE
        (.obj [("content", .str content)]) now)).1 evs w' →
      ContentRun S w ((cid, content, now) :: evs) w'

theorem handleContentChange_some {st : ServerState} {c : Conn} {s : Session} {uid : Nat}
    (content : String) (now : Nat)
    (hg : getA st.sessions c.sessionId = some s) (huid : c.userId = some uid) :
    (handleContentChange st c content now).1 =
      { st with sessions := setA st.sessions c.sessionId { s with content := content, lastActive := now } } ∧
    (handleContentChange st c content now).2.closed = false := by
  unfold handleContentChange
  rw [hg, huid]
  dsimp only
  cases getA s.users uid <;> exact ⟨rfl, rfl⟩

theorem contentStep_session {S : String} {w : World} {cid content : String} {now : Nat}
    (h : CStep S w cid content now) :
    ∃ s, getA w.st.sessions S = some s ∧
      getA (stepWorld w (.msg cid .CONTENT_CHANGE
        (.obj [("content", .str content)]) now)).1.st.sessions S =
        some { s with content := content, lastActive := now } := by
  obtain ⟨c, hc, hcon, hsid, huidS, hsessS, ⟨rl', hrl⟩, hval⟩ := h
  obtain ⟨uid, huid⟩ := Option.isSome_iff_exists.mp huidS
  subst hsid
  obtain ⟨s, hg⟩ := Option.isSome_iff_exists.mp hsessS
  refine ⟨s, hg, ?_⟩
  have hcf : ((JsVal.obj [("content", JsVal.str content)]).fieldOpt "content") =
    .str content := rfl
  have hv := validate_content_ok hcf hval
  have hwc : wrappedEvents.contains MessageType.CONTENT_CHANGE = true := by decide
  have hg1 : getA ({ w.st with rl := rl' } : ServerState).sessions c.sessionId = some s := hg
  have hws : wrapStep w.st c .CONTENT_CHANGE (JsVal.obj [("content", JsVal.str content)]) now =
      runHandler { w.st with rl := rl' } c .CONTENT_CHANGE
        (JsVal.obj [("content", JsVal.str content)]) now := wrapStep_ok hrl hv
  have hrh : runHandler { w.st with rl := rl' } c .CONTENT_CHANGE
        (JsVal.obj [("content", JsVal.str content)]) now =
      ((handleContentChange { w.st with rl := rl' } c content now).1, c,
        (handleContentChange { w.st with rl := rl' } c content now).2) := rfl
  have hcc := handleContentChange_some content now hg1 huid
  rw [stepWorld_msg_wrapped hc hcon hwc, hws, hrh]
  dsimp only
  rw [if_neg (by rw [hcc.2]; exact fun hh => Bool.false_ne_true hh)]
  dsimp only
  rw [hcc.1]
  exact getA_setA_self _ _ _

theorem contentRun_last {S : String} {w w' : World} {evs : List (String × String × Nat)}
    (hrun : ContentRun S w evs w') :
    ∀ cN, (evs.map (fun e => e.2.1)).getLast? = some cN →
      ∃ s', getA w'.st.sessions S = some s' ∧ s'.content = cN := by
  induction hrun with
  | nil w =>
    intro cN h
    simp at h
  | cons w w2 cid content now rest hstep hrest ih =>
    intro cN hlast
    cases rest with
    | nil =>
      cases hrest
      obtain ⟨s, hg, hafter⟩ := contentStep_session hstep
      have hcn : content = cN := by simpa using hlast
      subst hcn
      exact ⟨_, hafter, rfl⟩
    | cons e2 rest2 =>
      refine ih cN ?_
      simp only [List.map_cons, List.getLast?_cons_cons] at hlast
      simp only [List.map_cons]
      exact hlast

/-- Claim C4: after a sequence of valid, non-rate-limited CONTENT_CHANGE
events from connections joined into live session S, processed in arrival
order, S's content equals the last event's content payload, and a
SYNC_REQUEST from any connected member of S then returns exactly that content
in its SYNC_RESPONSE. -/
theorem C4_last_write_wins (S : String) (w w' : World)
    (evs : List (String × String × Nat)) (cN : String) (hrun : ContentRun S w evs w')
    (hlast : (evs.map (fun e => e.2.1)).getLast? = some cN) :
    (∃ s', getA w'.st.sessions S = some s' ∧ s'.content = cN) ∧
    (∀ (m : String) (mc : Conn), getA w'.conns m = some mc → mc.connected = true →
      mc.sessionId = S → ∀ (payload : JsVal) (syncNow : Nat),
      ∃ lg us, (stepWorld w' (.msg m .SYNC_REQUEST payload syncNow)).2 =
        ⟨[.syncResponse cN lg us], [], false⟩) := by
  obtain ⟨s', hg, hcontent⟩ := contentRun_last hrun cN hlast
  refine ⟨⟨s', hg, hcontent⟩, ?_⟩
  intro m mc hmc hmcon hmsid payload syncNow
  rw [stepWorld_syncRequest hmc hmcon]
  unfold handleSyncRequest
  rw [hmsid, hg]
  refine ⟨s'.language, s'.users.map (fun q => q.2), ?_⟩
  dsimp only
  rw [hcontent]

def cEv1 : WEvent := .msg "c1" .CONTENT_CHANGE (.obj [("content", .str "hello")]) 0

def cEv2 : WEvent := .msg "c1" .CONTENT_CHANGE (.obj [("content", .str "world")]) 1

def w4a : World := (stepWorld soloWorld cEv1).1

def w4b : World := (stepWorld w4a cEv2).1

/-- Witness for C4: two sequential content changes on the solo session leave
content "world", and the member's SYNC_REQUEST returns exactly "world". -/
theorem C4_last_write_wins_witness :
    (∃ s', getA w4b.st.sessions "room" = some s' ∧ s'.content = "world") ∧
    (∃ lg us, (stepWorld w4b (.msg "c1" .SYNC_REQUEST .undefined 2)).2 =
      ⟨[.syncResponse "world" lg us], [], false⟩) := by
  have hrun : ContentRun "room" soloWorld [("c1", "hello", 0), ("c1", "world", 1)] w4b :=
    ContentRun.cons _ _ _ _ _ _
      ⟨soloConn, rfl, rfl, rfl, rfl, rfl,
        ⟨(soloWorld.st.rl.isRateLimited "c1" .CONTENT_CHANGE 0).1, rfl⟩, rfl⟩
      (ContentRun.cons _ _ _ _ _ _
        ⟨soloConn, rfl, rfl, rfl, rfl, rfl,
          ⟨(w4a.st.rl.isRateLimited "c1" .CONTENT_CHANGE 1).1, rfl⟩, rfl⟩
        (ContentRun.nil _))
  have h := C4_last_write_wins "room" soloWorld w4b _ "world" hrun rfl
  exact ⟨h.1, h.2 "c1" soloConn rfl rfl rfl .undefined 2⟩

/-- Claim C7: for every wrapped inbound event the rate-limit check runs
first (a limited event is reported as RATE_LIMIT_EXCEEDED regardless of the
payload, so validation never preempts it) and payload validation second, both
strictly before any registry mutation: on either failure exactly one ERROR is
emitted to the originating connection, nothing is broadcast to the room, and
the session map is unchanged. -/
theorem C7_wrapper_fail_closed (w : World) (cid : String) (c : Conn) (event : MessageType)
    (payload : JsVal) (now : Nat)
    (hc : getA w.conns cid = some c) (hcon : c.connected = true)
    (hw : wrappedEvents.contains event = true) :
    (∀ rl' m, w.st.rl.isRateLimited c.sid event now = (rl', true, some m) →
      (stepWorld w (.msg cid event payload now)).2 =
        ⟨[.error "RATE_LIMIT_EXCEEDED" m], [], false⟩ ∧
      (stepWorld w (.msg cid event payload now)).1.st.sessions = w.st.sessions ∧
      (stepWorld w (.msg cid event payload now)).1.st = { w.st with rl := rl' }) ∧
    (∀ rl' ve, w.st.rl.isRateLimited c.sid event now = (rl', false, none) →
      ValidationService.validateEventPayload event payload = .ok (some ve) →
      (stepWorld w (.msg cid event payload now)).2 =
        ⟨[.error "VALIDATION_ERROR" ve.message], [], false⟩ ∧
      (stepWorld w (.msg cid event payload now)).1.st.sessions = w.st.sessions ∧
      (stepWorld w (.msg cid event payload now)).1.st = { w.st with rl := rl' }) := by
  constructor
  · intro rl' m hrl
    rw [stepWorld_msg_wrapped hc hcon hw, wrapStep_limited hrl]
    exact ⟨rfl, rfl, rfl⟩
  · intro rl' ve hrl hv
    rw [stepWorld_msg_wrapped hc hcon hw, wrapStep_invalid hrl hv]
    exact ⟨rfl, rfl, rfl⟩

/-- The limiter after connection "c1" exhausts its 50-event CONTENT_CHANGE
window. -/
def limitedRL : RateLimiter := (iterRL serverRateLimiter "c1" .CONTENT_CHANGE 0 50).1

def limitedWorld : World :=
  { st := { sessions := [("room", soloSession)], currentUserId := 2, rl := limitedRL },
    conns := [("c1", soloConn)] }

/-- Witness for C7: the 51st content change in the window is refused with
RATE_LIMIT_EXCEEDED and mutates no session; a non-string content payload is
refused with the validator's message and mutates no session. -/
theorem C7_wrapper_fail_closed_witness :
    (stepWorld limitedWorld (.msg "c1" .CONTENT_CHANGE (.obj [("content", .str "x")]) 0)).2 =
      ⟨[.error "RATE_LIMIT_EXCEEDED" "Too many content changes. Please wait a moment."],
        [], false⟩ ∧
    (stepWorld limitedWorld
      (.msg "c1" .CONTENT_CHANGE (.obj [("content", .str "x")]) 0)).1.st.sessions =
      limitedWorld.st.sessions ∧
    (stepWorld soloWorld (.msg "c1" .CONTENT_CHANGE (.obj [("content", .num 5)]) 0)).2 =
      ⟨[.error "VALIDATION_ERROR" "Content must be a string"], [], false⟩ ∧
    (stepWorld soloWorld
      (.msg "c1" .CONTENT_CHANGE (.obj [("content", .num 5)]) 0)).1.st.sessions =
      soloWorld.st.sessions := by
  have h1 := (C7_wrapper_fail_closed limitedWorld "c1" soloConn .CONTENT_CHANGE
    (.obj [("content", .str "x")]) 0 rfl rfl (by decide)).1
    (limitedRL.isRateLimited "c1" .CONTENT_CHANGE 0).1
    "Too many content changes. Please wait a moment." rfl
  have h2 := (C7_wrapper_fail_closed soloWorld "c1" soloConn .CONTENT_CHANGE
    (.obj [("content", .num 5)]) 0 rfl rfl (by decide)).2
    (serverRateLimiter.isRateLimited "c1" .CONTENT_CHANGE 0).1
    ⟨"Content must be a string"⟩ rfl rfl
  exact ⟨h1.1, h1.2.1, h2.1, h2.2.1⟩

/-- Claim C10: SYNC_REQUEST is handled without the rate-limit/validation
wrapper — the step leaves the whole gateway state (in particular the rate
limiter) unchanged for every payload, including an undefined one that would
make the typed validators throw — and when the connection's session id has no
live session the handler sends nothing at all: no SYNC_RESPONSE, no ERROR,
and no state change. -/
theorem C10_sync_request_bypass (w : World) (cid : String) (c : Conn) (payload : JsVal)
    (now : Nat) (hc : getA w.conns cid = some c) (hcon : c.connected = true) :
    (stepWorld w (.msg cid .SYNC_REQUEST payload now)).1 = w ∧
    (getA w.st.sessions c.sessionId = none →
      stepWorld w (.msg cid .SYNC_REQUEST payload now) = (w, Output.empty)) ∧
    (∀ s, getA w.st.sessions c.sessionId = some s →
      stepWorld w (.msg cid .SYNC_REQUEST payload now) =
        (w, ⟨[.syncResponse s.content s.language (s.users.map (fun q => q.2))], [], false⟩)) := by
  rw [stepWorld_syncRequest hc hcon]
  refine ⟨rfl, ?_, ?_⟩
  · intro hg
    unfold handleSyncRequest
    rw [hg]
  · intro s hg
    unfold handleSyncRequest
    rw [hg]

/-- Witness for C10: with no live session the request is silently ignored and
the state is untouched; with a live session the requester gets the snapshot —
both with an undefined payload, which the wrapper's validators would reject. -/
theorem C10_sync_request_bypass_witness :
    (stepWorld lostSessionWorld (.msg "c1" .SYNC_REQUEST .undefined 3)).1 = lostSessionWorld ∧
    stepWorld lostSessionWorld (.msg "c1" .SYNC_REQUEST .undefined 3) =
      (lostSessionWorld, Output.empty) ∧
    stepWorld soloWorld (.msg "c1" .SYNC_REQUEST .undefined 3) =
      (soloWorld, ⟨[.syncResponse "shared doc" "python" [soloUser]], [], false⟩) := by
  have h1 := C10_sync_request_bypass lostSessionWorld "c1" soloConn .undefined 3 rfl rfl
  have h2 := C10_sync_request_bypass soloWorld "c1" soloConn .undefined 3 rfl rfl
  exact ⟨h1.1, h1.2.1 rfl, h2.2.2 soloSession rfl⟩
